import Mathlib

/-!
Built-in value witness tables of `runtime/KnownMetadata.cpp`.

A shallow embedding of the value witness functions defined in
`KnownMetadata.cpp` (the POD tables `_TWVBi8_` .. `_TWVBi64_`, the native
object table `_TWVBo` and the ObjC object table `_TWVBO`) over a
byte-addressed memory, followed by theorems about them.

Conventions of the embedding.

* Memory is a total map from addresses (`Nat`) to bytes (`Fin 256`).  A C
  object of type `T` at address `a` occupies the `sizeof(T)` bytes
  `a, a+1, ..`; an lvalue read `*p` is `load (sizeof T) mem p` and a write
  `*p = v` is `store (sizeof T) mem p v` (little-endian).
* `sizeof(void*)` is not fixed by the source file; it is the parameter `pw`.
* Every function of the file receives a trailing `ValueWitnessTable *self`
  that none of them reads; the embedding leaves that argument out.
* `swift_retain`, `swift_release`, `objc_retain` and `objc_release` are
  external to the file.  The functions are embedded over an arbitrary
  quadruple of such primitives (`Externs`); `refExterns` is the instrumented
  reference-counting model of them described by the specification.
* The braced initialisers of the tables are also kept as written, as lists of
  function pointers and integers (`Builtin.initializer`), and tied to the
  tables by `table_entry_of_initializer`.
* `ValueBuffer`, `MetadataKind` and `OpaqueMetadata` are declared in
  `Metadata.h`; what the file needs of them is modelled from the
  specification.
-/

namespace Swift

/-! ## Memory -/

/-- One byte of memory. -/
abbrev Byte := Fin 256

/-- Byte-addressed memory. -/
abbrev Mem := Nat → Byte

/-- Value of the `w`-byte little-endian unsigned integer stored at address `a`. -/
def load : Nat → Mem → Nat → Nat
  | 0, _, _ => 0
  | w + 1, m, a => (m a).val + 256 * load w m (a + 1)

/-- Memory after writing the low `w` bytes of `v` at address `a` (little-endian). -/
def store (w : Nat) (m : Mem) (a v : Nat) : Mem :=
  fun x => if a ≤ x ∧ x < a + w then ⟨v / 256 ^ (x - a) % 256, Nat.mod_lt _ (by decide)⟩ else m x

/-- Two `w`-byte cells that either coincide or do not overlap, as any two
objects of one type at suitably aligned addresses do. -/
def SameOrDisjoint (w a b : Nat) : Prop := a = b ∨ a + w ≤ b ∨ b + w ≤ a

instance (w a b : Nat) : Decidable (SameOrDisjoint w a b) := by
  unfold SameOrDisjoint; infer_instance

/-! ## Machine state and external primitives -/

/-- Machine state: the byte memory together with the state `σ` of whatever
lies behind the external primitives. -/
structure State (σ : Type) where
  mem : Mem
  world : σ

/-- The four external reference-counting entry points used by the file:
`HeapObject *swift_retain(HeapObject*)`, `void swift_release(HeapObject*)`,
`void *objc_retain(void*)`, `void objc_release(void*)`. -/
structure Externs (σ : Type) where
  swift_retain : Nat → State σ → Nat × State σ
  swift_release : Nat → State σ → State σ
  objc_retain : Nat → State σ → Nat × State σ
  objc_release : Nat → State σ → State σ

/-- The same primitives with the native and the ObjC pair exchanged. -/
def Externs.swap {σ : Type} (E : Externs σ) : Externs σ :=
  { swift_retain := E.objc_retain
    swift_release := E.objc_release
    objc_retain := E.swift_retain
    objc_release := E.swift_release }

/-! ## The functions of `KnownMetadata.cpp` -/

section Functions

variable {σ : Type}

/-- Source: `static void doNothing(void *ptr, void *self) {}` -/
def doNothing (_ptr : Nat) (s : State σ) : State σ := s

/-- Source: `projectBuffer`: `return reinterpret_cast<OpaqueValue*>(dest);` -/
def projectBuffer (dest : Nat) : Nat := dest

/-- Source: `copy<T>` with `sizeofT = sizeof(T)`: `*dest = *src; return dest;` -/
def copy (sizeofT : Nat) (dest src : Nat) (s : State σ) : Nat × State σ :=
  (dest, { s with mem := store sizeofT s.mem dest (load sizeofT s.mem src) })

/-- Source: `initWithRetain`: `*dest = swift_retain(*src); return dest;` -/
def initWithRetain (E : Externs σ) (pw : Nat) (dest src : Nat) (s : State σ) : Nat × State σ :=
  let r := E.swift_retain (load pw s.mem src) s
  (dest, { r.2 with mem := store pw r.2.mem dest r.1 })

/-- Source: `destroyWithRelease`: `swift_release(*var);` -/
def destroyWithRelease (E : Externs σ) (pw : Nat) (var : Nat) (s : State σ) : State σ :=
  E.swift_release (load pw s.mem var) s

/-- Source: `assignWithRetain`:
`newValue = swift_retain(*src); swift_release(*dest); *dest = newValue; return dest;` -/
def assignWithRetain (E : Externs σ) (pw : Nat) (dest src : Nat) (s : State σ) : Nat × State σ :=
  let r := E.swift_retain (load pw s.mem src) s
  let newValue := r.1
  let s2 := E.swift_release (load pw r.2.mem dest) r.2
  (dest, { s2 with mem := store pw s2.mem dest newValue })

/-- Source: `assignWithoutRetain`:
`newValue = *src; swift_release(*dest); *dest = newValue; return dest;` -/
def assignWithoutRetain (E : Externs σ) (pw : Nat) (dest src : Nat) (s : State σ) : Nat × State σ :=
  let newValue := load pw s.mem src
  let s1 := E.swift_release (load pw s.mem dest) s
  (dest, { s1 with mem := store pw s1.mem dest newValue })

/-- Source: `initWithObjCRetain`: `*dest = objc_retain(*src); return dest;` -/
def initWithObjCRetain (E : Externs σ) (pw : Nat) (dest src : Nat) (s : State σ) : Nat × State σ :=
  let r := E.objc_retain (load pw s.mem src) s
  (dest, { r.2 with mem := store pw r.2.mem dest r.1 })

/-- Source: `destroyWithObjCRelease`: `objc_release(*var);` -/
def destroyWithObjCRelease (E : Externs σ) (pw : Nat) (var : Nat) (s : State σ) : State σ :=
  E.objc_release (load pw s.mem var) s

/-- Source: `assignWithObjCRetain`:
`newValue = objc_retain(*src); objc_release(*dest); *dest = newValue; return dest;` -/
def assignWithObjCRetain (E : Externs σ) (pw : Nat) (dest src : Nat) (s : State σ) : Nat × State σ :=
  let r := E.objc_retain (load pw s.mem src) s
  let newValue := r.1
  let s2 := E.objc_release (load pw r.2.mem dest) r.2
  (dest, { s2 with mem := store pw s2.mem dest newValue })

/-- Source: `assignWithoutObjCRetain`:
`newValue = *src; objc_release(*dest); *dest = newValue; return dest;` -/
def assignWithoutObjCRetain (E : Externs σ) (pw : Nat) (dest src : Nat) (s : State σ) : Nat × State σ :=
  let newValue := load pw s.mem src
  let s1 := E.objc_release (load pw s.mem dest) s
  (dest, { s1 with mem := store pw s1.mem dest newValue })

/-- The record `ValueWitnessTable` of `Metadata.h`, in the order in which the
initialisers of the file fill it: twelve function entries followed by
`size`, `alignment`, `stride`.  Entries returning `void` map states to
states; entries returning a pointer also give that pointer. -/
structure ValueWitnessTable (σ : Type) where
  destroyBuffer : Nat → State σ → State σ
  initializeBufferWithCopyOfBuffer : Nat → Nat → State σ → Nat × State σ
  projectBuffer : Nat → State σ → Nat × State σ
  deallocateBuffer : Nat → State σ → State σ
  destroy : Nat → State σ → State σ
  initializeBufferWithCopy : Nat → Nat → State σ → Nat × State σ
  initializeWithCopy : Nat → Nat → State σ → Nat × State σ
  assignWithCopy : Nat → Nat → State σ → Nat × State σ
  initializeBufferWithTake : Nat → Nat → State σ → Nat × State σ
  initializeWithTake : Nat → Nat → State σ → Nat × State σ
  assignWithTake : Nat → Nat → State σ → Nat × State σ
  allocateBuffer : Nat → State σ → Nat × State σ
  size : Nat
  alignment : Nat
  stride : Nat

/-- Source: `POD_VALUE_WITNESS_TABLE(TYPE, SIZE)` with `sizeofT = sizeof(TYPE)`. -/
def POD_VALUE_WITNESS_TABLE (sizeofT SIZE : Nat) : ValueWitnessTable σ :=
  { destroyBuffer := doNothing
    initializeBufferWithCopyOfBuffer := copy sizeofT
    projectBuffer := fun b s => (projectBuffer b, s)
    deallocateBuffer := doNothing
    destroy := doNothing
    initializeBufferWithCopy := copy sizeofT
    initializeWithCopy := copy sizeofT
    assignWithCopy := copy sizeofT
    initializeBufferWithTake := copy sizeofT
    initializeWithTake := copy sizeofT
    assignWithTake := copy sizeofT
    allocateBuffer := fun b s => (projectBuffer b, s)
    size := SIZE
    alignment := SIZE
    stride := SIZE }

/-- Source: `_TWVBi8_ = POD_VALUE_WITNESS_TABLE(uint8_t, 1)` -/
def _TWVBi8_ : ValueWitnessTable σ := POD_VALUE_WITNESS_TABLE 1 1

/-- Source: `_TWVBi16_ = POD_VALUE_WITNESS_TABLE(uint16_t, 2)` -/
def _TWVBi16_ : ValueWitnessTable σ := POD_VALUE_WITNESS_TABLE 2 2

/-- Source: `_TWVBi32_ = POD_VALUE_WITNESS_TABLE(uint32_t, 4)` -/
def _TWVBi32_ : ValueWitnessTable σ := POD_VALUE_WITNESS_TABLE 4 4

/-- Source: `_TWVBi64_ = POD_VALUE_WITNESS_TABLE(uint64_t, 8)` -/
def _TWVBi64_ : ValueWitnessTable σ := POD_VALUE_WITNESS_TABLE 8 8

/-- Source: `_TWVBo`, the value-witness table for Swift object pointers
(`pw = sizeof(void*) = sizeof(uintptr_t)`). -/
def _TWVBo (E : Externs σ) (pw : Nat) : ValueWitnessTable σ :=
  { destroyBuffer := destroyWithRelease E pw
    initializeBufferWithCopyOfBuffer := initWithRetain E pw
    projectBuffer := fun b s => (projectBuffer b, s)
    deallocateBuffer := doNothing
    destroy := destroyWithRelease E pw
    initializeBufferWithCopy := initWithRetain E pw
    initializeWithCopy := initWithRetain E pw
    assignWithCopy := assignWithRetain E pw
    initializeBufferWithTake := copy pw
    initializeWithTake := copy pw
    assignWithTake := assignWithoutRetain E pw
    allocateBuffer := fun b s => (projectBuffer b, s)
    size := pw
    alignment := pw
    stride := pw }

/-- Source: `_TWVBO`, the value-witness table for ObjC object pointers. -/
def _TWVBO (E : Externs σ) (pw : Nat) : ValueWitnessTable σ :=
  { destroyBuffer := destroyWithObjCRelease E pw
    initializeBufferWithCopyOfBuffer := initWithObjCRetain E pw
    projectBuffer := fun b s => (projectBuffer b, s)
    deallocateBuffer := doNothing
    destroy := destroyWithObjCRelease E pw
    initializeBufferWithCopy := initWithObjCRetain E pw
    initializeWithCopy := initWithObjCRetain E pw
    assignWithCopy := assignWithObjCRetain E pw
    initializeBufferWithTake := copy pw
    initializeWithTake := copy pw
    assignWithTake := assignWithoutObjCRetain E pw
    allocateBuffer := fun b s => (projectBuffer b, s)
    size := pw
    alignment := pw
    stride := pw }

end Functions

/-! ## Reference-counting model of the external primitives -/

/-- The two reference-counting domains: Swift native objects and ObjC objects. -/
inductive Domain where
  | native
  | foreign
  deriving DecidableEq, Repr

/-- Which primitive was called. -/
inductive Op where
  | retain
  | release
  deriving DecidableEq, Repr

/-- One observed call of a primitive: which one, in which domain, on which
pointer, and the reference count of that pointer right after the call. -/
structure Call where
  op : Op
  dom : Domain
  ptr : Nat
  after : Nat
  deriving DecidableEq, Repr

/-- State behind the primitives: a reference count per domain and pointer,
the objects freed so far (in order), and the log of all calls made so far. -/
structure World where
  count : Domain → Nat → Nat
  freed : List (Domain × Nat)
  log : List Call

/-- The calls of a log without the recorded counts: `(op, domain, pointer)`. -/
def calls (w : World) : List (Op × Domain × Nat) :=
  w.log.map fun c => (c.op, c.dom, c.ptr)

/-- Modelled from the spec: the external `retain(pointer) -> pointer`
(`swift_retain`, `objc_retain`), which "increments count, returns same
pointer".  The call is appended to the log. -/
def retainIn (d : Domain) (p : Nat) (s : State World) : Nat × State World :=
  (p, { s with world :=
    { count := fun d1 q => if d1 = d ∧ q = p then s.world.count d p + 1 else s.world.count d1 q
      freed := s.world.freed
      log := s.world.log ++ [⟨Op.retain, d, p, s.world.count d p + 1⟩] } })

/-- Modelled from the spec: the external `release(pointer) -> void`
(`swift_release`, `objc_release`), which "decrements count, frees at zero".
The call is appended to the log. -/
def releaseIn (d : Domain) (p : Nat) (s : State World) : State World :=
  { s with world :=
    { count := fun d1 q => if d1 = d ∧ q = p then s.world.count d p - 1 else s.world.count d1 q
      freed := if s.world.count d p - 1 = 0 then s.world.freed ++ [(d, p)] else s.world.freed
      log := s.world.log ++ [⟨Op.release, d, p, s.world.count d p - 1⟩] } }

/-- The four external primitives as reference-counting primitives of the
native domain (`swift_*`) and of the foreign domain (`objc_*`). -/
def refExterns : Externs World :=
  { swift_retain := retainIn Domain.native
    swift_release := releaseIn Domain.native
    objc_retain := retainIn Domain.foreign
    objc_release := releaseIn Domain.foreign }

/-- The two reference-counted tables by domain: `_TWVBo` for native objects,
`_TWVBO` for foreign ones, over the reference-counting model. -/
def rcTable (d : Domain) (pw : Nat) : ValueWitnessTable World :=
  match d with
  | Domain.native => _TWVBo refExterns pw
  | Domain.foreign => _TWVBO refExterns pw

/-- The six built-in types for which the file defines a witness table and an
opaque metadata record (the `OPAQUE_METADATA` list). -/
inductive Builtin where
  | Bi8_
  | Bi16_
  | Bi32_
  | Bi64_
  | Bo
  | BO
  deriving DecidableEq, Repr

/-- The witness table `_TWV##TYPE` of a built-in type. -/
def Builtin.table {σ : Type} (E : Externs σ) (pw : Nat) : Builtin → ValueWitnessTable σ
  | Builtin.Bi8_ => _TWVBi8_
  | Builtin.Bi16_ => _TWVBi16_
  | Builtin.Bi32_ => _TWVBi32_
  | Builtin.Bi64_ => _TWVBi64_
  | Builtin.Bo => _TWVBo E pw
  | Builtin.BO => _TWVBO E pw

/-- The four POD built-ins. -/
def podBuiltins : List Builtin := [Builtin.Bi8_, Builtin.Bi16_, Builtin.Bi32_, Builtin.Bi64_]

/-- The reference-counting domain of a built-in, if it is reference counted. -/
def Builtin.domain : Builtin → Option Domain
  | Builtin.Bo => some Domain.native
  | Builtin.BO => some Domain.foreign
  | _ => none

/-- Primitives that observe the order of events: every call appends to the
world which primitive was called, the pointer it received and the pointer the
watched cell `cell` holds at the moment of the call; memory is left alone and
the retains return their argument. -/
def watchExterns (pw cell : Nat) : Externs (List (Op × Domain × Nat × Nat)) :=
  { swift_retain := fun p s =>
      (p, { s with world := s.world ++ [(Op.retain, Domain.native, p, load pw s.mem cell)] })
    swift_release := fun p s =>
      { s with world := s.world ++ [(Op.release, Domain.native, p, load pw s.mem cell)] }
    objc_retain := fun p s =>
      (p, { s with world := s.world ++ [(Op.retain, Domain.foreign, p, load pw s.mem cell)] })
    objc_release := fun p s =>
      { s with world := s.world ++ [(Op.release, Domain.foreign, p, load pw s.mem cell)] } }

/-- The twelve function entries of a witness table, in table order. -/
inductive Entry where
  | destroyBuffer
  | initializeBufferWithCopyOfBuffer
  | projectBuffer
  | deallocateBuffer
  | destroy
  | initializeBufferWithCopy
  | initializeWithCopy
  | assignWithCopy
  | initializeBufferWithTake
  | initializeWithTake
  | assignWithTake
  | allocateBuffer
  deriving DecidableEq, Repr

/-- Calling entry `e` of a table: `a` is the first pointer argument, `b` the
second one (not passed to the entries that take a single pointer).  The
result is the returned pointer (`none` for the entries returning `void`) and
the state after the call. -/
def ValueWitnessTable.call {σ : Type} (T : ValueWitnessTable σ) (e : Entry) (a b : Nat)
    (s : State σ) : Option Nat × State σ :=
  match e with
  | Entry.destroyBuffer => (none, T.destroyBuffer a s)
  | Entry.initializeBufferWithCopyOfBuffer =>
    (some (T.initializeBufferWithCopyOfBuffer a b s).1, (T.initializeBufferWithCopyOfBuffer a b s).2)
  | Entry.projectBuffer => (some (T.projectBuffer a s).1, (T.projectBuffer a s).2)
  | Entry.deallocateBuffer => (none, T.deallocateBuffer a s)
  | Entry.destroy => (none, T.destroy a s)
  | Entry.initializeBufferWithCopy =>
    (some (T.initializeBufferWithCopy a b s).1, (T.initializeBufferWithCopy a b s).2)
  | Entry.initializeWithCopy => (some (T.initializeWithCopy a b s).1, (T.initializeWithCopy a b s).2)
  | Entry.assignWithCopy => (some (T.assignWithCopy a b s).1, (T.assignWithCopy a b s).2)
  | Entry.initializeBufferWithTake =>
    (some (T.initializeBufferWithTake a b s).1, (T.initializeBufferWithTake a b s).2)
  | Entry.initializeWithTake => (some (T.initializeWithTake a b s).1, (T.initializeWithTake a b s).2)
  | Entry.assignWithTake => (some (T.assignWithTake a b s).1, (T.assignWithTake a b s).2)
  | Entry.allocateBuffer => (some (T.allocateBuffer a s).1, (T.allocateBuffer a s).2)

/-- The calls logged between world `w` and a later world `w1`. -/
def newCalls (w w1 : World) : List (Op × Domain × Nat) :=
  (calls w1).drop (calls w).length

/-- Relabel a call as a call of domain `d`. -/
def inDomain (d : Domain) (c : Op × Domain × Nat) : Op × Domain × Nat := (c.1, d, c.2.2)

/-! ## The tables as written: initialiser lists of function pointers -/

/-- The functions defined in the file, by name (`copy<T>` by `sizeof(T)`). -/
inductive Fn where
  | doNothing
  | projectBuffer
  | copy (sizeofT : Nat)
  | initWithRetain
  | destroyWithRelease
  | assignWithRetain
  | assignWithoutRetain
  | initWithObjCRetain
  | destroyWithObjCRelease
  | assignWithObjCRetain
  | assignWithoutObjCRetain
  deriving DecidableEq, Repr

/-- One item of a table initialiser: a function pointer (`none` is the null
pointer, `some f` is `&f`) or an unsigned integer. -/
inductive Item where
  | fn (p : Option Fn)
  | int (n : Nat)
  deriving DecidableEq, Repr

/-- The function pointers among a list of items, in order. -/
def fnPointers : List Item → List (Option Fn)
  | [] => []
  | Item.fn p :: l => p :: fnPointers l
  | Item.int _ :: l => fnPointers l

/-- The integers among a list of items, in order. -/
def integers : List Item → List Nat
  | [] => []
  | Item.fn _ :: l => integers l
  | Item.int n :: l => n :: integers l

/-- The braced initialiser of `POD_VALUE_WITNESS_TABLE(TYPE, SIZE)`, item by item. -/
def POD_initializer (sizeofT SIZE : Nat) : List Item :=
  [ Item.fn (some Fn.doNothing),
    Item.fn (some (Fn.copy sizeofT)),
    Item.fn (some Fn.projectBuffer),
    Item.fn (some Fn.doNothing),
    Item.fn (some Fn.doNothing),
    Item.fn (some (Fn.copy sizeofT)),
    Item.fn (some (Fn.copy sizeofT)),
    Item.fn (some (Fn.copy sizeofT)),
    Item.fn (some (Fn.copy sizeofT)),
    Item.fn (some (Fn.copy sizeofT)),
    Item.fn (some (Fn.copy sizeofT)),
    Item.fn (some Fn.projectBuffer),
    Item.int SIZE,
    Item.int SIZE,
    Item.int SIZE ]

/-- The braced initialiser of `_TWVBo`, item by item. -/
def _TWVBo_initializer (pw : Nat) : List Item :=
  [ Item.fn (some Fn.destroyWithRelease),
    Item.fn (some Fn.initWithRetain),
    Item.fn (some Fn.projectBuffer),
    Item.fn (some Fn.doNothing),
    Item.fn (some Fn.destroyWithRelease),
    Item.fn (some Fn.initWithRetain),
    Item.fn (some Fn.initWithRetain),
    Item.fn (some Fn.assignWithRetain),
    Item.fn (some (Fn.copy pw)),
    Item.fn (some (Fn.copy pw)),
    Item.fn (some Fn.assignWithoutRetain),
    Item.fn (some Fn.projectBuffer),
    Item.int pw,
    Item.int pw,
    Item.int pw ]

/-- The braced initialiser of `_TWVBO`, item by item. -/
def _TWVBO_initializer (pw : Nat) : List Item :=
  [ Item.fn (some Fn.destroyWithObjCRelease),
    Item.fn (some Fn.initWithObjCRetain),
    Item.fn (some Fn.projectBuffer),
    Item.fn (some Fn.doNothing),
    Item.fn (some Fn.destroyWithObjCRelease),
    Item.fn (some Fn.initWithObjCRetain),
    Item.fn (some Fn.initWithObjCRetain),
    Item.fn (some Fn.assignWithObjCRetain),
    Item.fn (some (Fn.copy pw)),
    Item.fn (some (Fn.copy pw)),
    Item.fn (some Fn.assignWithoutObjCRetain),
    Item.fn (some Fn.projectBuffer),
    Item.int pw,
    Item.int pw,
    Item.int pw ]

/-- The initialiser of the table `_TWV##TYPE` of a built-in type. -/
def Builtin.initializer (pw : Nat) : Builtin → List Item
  | Builtin.Bi8_ => POD_initializer 1 1
  | Builtin.Bi16_ => POD_initializer 2 2
  | Builtin.Bi32_ => POD_initializer 4 4
  | Builtin.Bi64_ => POD_initializer 8 8
  | Builtin.Bo => _TWVBo_initializer pw
  | Builtin.BO => _TWVBO_initializer pw

/-- Running a named function on a first pointer argument `a` and a second one
`b` (not passed to the functions of one pointer); the returned pointer is
`none` for the functions returning `void`. -/
def Fn.run {σ : Type} (E : Externs σ) (pw : Nat) (f : Fn) (a b : Nat) (s : State σ) :
    Option Nat × State σ :=
  match f with
  | Fn.doNothing => (none, Swift.doNothing a s)
  | Fn.projectBuffer => (some (Swift.projectBuffer a), s)
  | Fn.copy w => (some (Swift.copy w a b s).1, (Swift.copy w a b s).2)
  | Fn.initWithRetain =>
    (some (Swift.initWithRetain E pw a b s).1, (Swift.initWithRetain E pw a b s).2)
  | Fn.destroyWithRelease => (none, Swift.destroyWithRelease E pw a s)
  | Fn.assignWithRetain =>
    (some (Swift.assignWithRetain E pw a b s).1, (Swift.assignWithRetain E pw a b s).2)
  | Fn.assignWithoutRetain =>
    (some (Swift.assignWithoutRetain E pw a b s).1, (Swift.assignWithoutRetain E pw a b s).2)
  | Fn.initWithObjCRetain =>
    (some (Swift.initWithObjCRetain E pw a b s).1, (Swift.initWithObjCRetain E pw a b s).2)
  | Fn.destroyWithObjCRelease => (none, Swift.destroyWithObjCRelease E pw a s)
  | Fn.assignWithObjCRetain =>
    (some (Swift.assignWithObjCRetain E pw a b s).1, (Swift.assignWithObjCRetain E pw a b s).2)
  | Fn.assignWithoutObjCRetain =>
    (some (Swift.assignWithoutObjCRetain E pw a b s).1,
      (Swift.assignWithoutObjCRetain E pw a b s).2)

/-- Position of an entry in the table. -/
def Entry.index : Entry → Nat
  | Entry.destroyBuffer => 0
  | Entry.initializeBufferWithCopyOfBuffer => 1
  | Entry.projectBuffer => 2
  | Entry.deallocateBuffer => 3
  | Entry.destroy => 4
  | Entry.initializeBufferWithCopy => 5
  | Entry.initializeWithCopy => 6
  | Entry.assignWithCopy => 7
  | Entry.initializeBufferWithTake => 8
  | Entry.initializeWithTake => 9
  | Entry.assignWithTake => 10
  | Entry.allocateBuffer => 11

/-! ## Value buffers and opaque metadata -/

/-- Modelled from the spec: the capacity in bytes of a `ValueBuffer` (declared
in `Metadata.h`), "three machine words in the reference design". -/
def inlineBufferCapacity (pw : Nat) : Nat := 3 * pw

/-- Modelled from the spec: the `kind` tag of a type descriptor (`MetadataKind`
of `Metadata.h`); the file only uses `MetadataKind::Opaque`, the remaining
kinds are told apart by a number. -/
inductive MetadataKind where
  | Opaque
  | other (tag : Nat)
  deriving DecidableEq, Repr

/-- Modelled from the spec: a type descriptor (`OpaqueMetadata` of
`Metadata.h`), "a `kind` tag and an exclusive, never-null pointer to a
WitnessTable".  The pointer is `none` when null and `some T` when it is the
address `&_TWV##T` of the witness table of `T`. -/
structure OpaqueMetadata where
  Kind : MetadataKind
  ValueWitnesses : Option Builtin
  deriving DecidableEq, Repr

/-- Source: `OPAQUE_METADATA(TYPE)`, which defines
`_TMd##TYPE = { { MetadataKind::Opaque, &_TWV##TYPE } }`. -/
def OPAQUE_METADATA (TYPE : Builtin) : OpaqueMetadata :=
  { Kind := MetadataKind.Opaque, ValueWitnesses := some TYPE }

/-- Source: `OPAQUE_METADATA(Bi8_)`, the descriptor `_TMdBi8_`. -/
def _TMdBi8_ : OpaqueMetadata := OPAQUE_METADATA Builtin.Bi8_

/-- Source: `OPAQUE_METADATA(Bi16_)`, the descriptor `_TMdBi16_`. -/
def _TMdBi16_ : OpaqueMetadata := OPAQUE_METADATA Builtin.Bi16_

/-- Source: `OPAQUE_METADATA(Bi32_)`, the descriptor `_TMdBi32_`. -/
def _TMdBi32_ : OpaqueMetadata := OPAQUE_METADATA Builtin.Bi32_

/-- Source: `OPAQUE_METADATA(Bi64_)`, the descriptor `_TMdBi64_`. -/
def _TMdBi64_ : OpaqueMetadata := OPAQUE_METADATA Builtin.Bi64_

/-- Source: `OPAQUE_METADATA(Bo)`, the descriptor `_TMdBo`. -/
def _TMdBo : OpaqueMetadata := OPAQUE_METADATA Builtin.Bo

/-- Source: `OPAQUE_METADATA(BO)`, the descriptor `_TMdBO`. -/
def _TMdBO : OpaqueMetadata := OPAQUE_METADATA Builtin.BO

/-- The six descriptors the file defines, in the order of definition. -/
def builtinMetadata : List OpaqueMetadata :=
  [_TMdBi8_, _TMdBi16_, _TMdBi32_, _TMdBi64_, _TMdBo, _TMdBO]

/-- Modelled from the spec: `resolve(descriptor) → WitnessTable reference`,
the table the descriptor points to (`none` if the pointer is null). -/
def resolve {σ : Type} (E : Externs σ) (pw : Nat) (m : OpaqueMetadata) :
    Option (ValueWitnessTable σ) :=
  m.ValueWitnesses.map (Builtin.table E pw)

/-- Primitives whose retains return a pointer other than their argument (16
bytes further) and that do nothing else. -/
def shiftExterns : Externs Unit :=
  { swift_retain := fun p s => (p + 16, s)
    swift_release := fun _ s => s
    objc_retain := fun p s => (p + 16, s)
    objc_release := fun _ s => s }

/-! ## Concrete states used to exercise the theorems -/

/-- Memory holding zero everywhere. -/
def zeroMem : Mem := fun _ => 0

/-- A world in which every object has reference count 1 and nothing has
happened yet. -/
def freshWorld : World := { count := fun _ _ => 1, freed := [], log := [] }

/-- A 64-bit state with two pointer slots: address 0 holds the pointer
`0x1000` and address 8 holds the pointer `0x2000`; all counts are 1. -/
def demoState : State World :=
  { mem := store 8 (store 8 zeroMem 0 0x1000) 8 0x2000, world := freshWorld }

/-- A state whose 8-byte buffer at address 24 holds `0x1122334455667788`
(the three-word buffer at address 0 is the destination). -/
def podState : State World :=
  { mem := store 8 zeroMem 24 0x1122334455667788, world := freshWorld }

/-- A state over `shiftExterns` with the memory of `demoState`. -/
def shiftState : State Unit := { mem := demoState.mem, world := () }

/-! ## Facts about `load` and `store` -/

theorem load_lt (w : Nat) (m : Mem) (a : Nat) : load w m a < 256 ^ w := by
  induction w generalizing a with
  | zero => simp [load]
  | succ w ih =>
    have h1 := ih (a + 1)
    have h2 := (m a).isLt
    simp only [load, pow_succ]
    generalize 256 ^ w = X at h1 ⊢
    omega

theorem load_eq_of_bytes (k : Nat) (m : Mem) (a v : Nat)
    (h : ∀ i, i < k → (m (a + i)).val = v / 256 ^ i % 256) : load k m a = v % 256 ^ k := by
  induction k generalizing a v with
  | zero => simp [load, Nat.mod_one]
  | succ k ih =>
    have h0 := h 0 (Nat.succ_pos k)
    simp only [Nat.add_zero, pow_zero, Nat.div_one] at h0
    have h1 : load k m (a + 1) = v / 256 % 256 ^ k := by
      apply ih
      intro i hi
      have := h (i + 1) (Nat.succ_lt_succ hi)
      rw [show a + 1 + i = a + (i + 1) by omega, this, pow_succ, Nat.mul_comm,
        Nat.div_div_eq_div_mul]
    simp only [load, h0, h1]
    rw [pow_succ, Nat.mul_comm (256 ^ k) 256, Nat.mod_mul]

theorem byte_of_load (w : Nat) (m : Mem) (a i : Nat) (hi : i < w) :
    load w m a / 256 ^ i % 256 = (m (a + i)).val := by
  induction w generalizing a i with
  | zero => omega
  | succ w ih =>
    have hb := (m a).isLt
    cases i with
    | zero =>
      simp only [load, pow_zero, Nat.div_one, Nat.add_zero]
      omega
    | succ i =>
      have h := ih (a + 1) i (Nat.lt_of_succ_lt_succ hi)
      have e : ((m a).val + 256 * load w m (a + 1)) / 256 = load w m (a + 1) := by omega
      rw [show a + (i + 1) = a + 1 + i by omega, ← h]
      simp only [load]
      rw [pow_succ, Nat.mul_comm (256 ^ i) 256, ← Nat.div_div_eq_div_mul, e]

theorem store_apply_in (w : Nat) (m : Mem) (a v x : Nat) (h : a ≤ x ∧ x < a + w) :
    (store w m a v x).val = v / 256 ^ (x - a) % 256 := by
  simp [store, h]

theorem store_apply_out (w : Nat) (m : Mem) (a v x : Nat) (h : ¬ (a ≤ x ∧ x < a + w)) :
    store w m a v x = m x := by
  simp [store, h]

theorem load_store_same (w : Nat) (m : Mem) (a v : Nat) :
    load w (store w m a v) a = v % 256 ^ w := by
  apply load_eq_of_bytes
  intro i hi
  rw [store_apply_in w m a v (a + i) ⟨by omega, by omega⟩, Nat.add_sub_cancel_left]

theorem load_store_load (w : Nat) (m : Mem) (a b : Nat) :
    load w (store w m a (load w m b)) a = load w m b := by
  rw [load_store_same, Nat.mod_eq_of_lt (load_lt w m b)]

theorem store_load_apply (w : Nat) (m : Mem) (d s x : Nat) :
    store w m d (load w m s) x = if d ≤ x ∧ x < d + w then m (s + (x - d)) else m x := by
  by_cases h : d ≤ x ∧ x < d + w
  · rw [if_pos h]
    apply Fin.ext
    rw [store_apply_in w m d _ x h]
    exact byte_of_load w m s (x - d) (by omega)
  · rw [if_neg h, store_apply_out w m d _ x h]

theorem store_load_self (w : Nat) (m : Mem) (a : Nat) : store w m a (load w m a) = m := by
  funext x
  rw [store_load_apply]
  split
  · congr 1; omega
  · rfl

theorem load_congr (w : Nat) (m1 m2 : Mem) (a : Nat)
    (h : ∀ i, i < w → m1 (a + i) = m2 (a + i)) : load w m1 a = load w m2 a := by
  induction w generalizing a with
  | zero => rfl
  | succ w ih =>
    have h0 := h 0 (Nat.succ_pos w)
    simp only [Nat.add_zero] at h0
    have h1 : load w m1 (a + 1) = load w m2 (a + 1) := by
      apply ih
      intro i hi
      have := h (i + 1) (Nat.succ_lt_succ hi)
      rwa [show a + 1 + i = a + (i + 1) by omega]
    simp only [load, h0, h1]

theorem load_store_disjoint (w k : Nat) (m : Mem) (a b v : Nat) (h : a + w ≤ b ∨ b + k ≤ a) :
    load w (store k m b v) a = load w m a := by
  apply load_congr
  intro i hi
  apply store_apply_out
  omega

/-- A copy between two cells that coincide or are disjoint leaves the source
cell holding what it held. -/
theorem load_src_after_copy (w : Nat) (m : Mem) (d s : Nat) (h : SameOrDisjoint w d s) :
    load w (store w m d (load w m s)) s = load w m s := by
  rcases h with h | h | h
  · subst h; exact load_store_load w m d d
  · exact load_store_disjoint w w m s d _ (Or.inr h)
  · exact load_store_disjoint w w m s d _ (Or.inl h)

theorem bytes_src_after_copy (w : Nat) (m : Mem) (d s : Nat) (h : SameOrDisjoint w d s)
    (i : Nat) (hi : i < w) : store w m d (load w m s) (s + i) = m (s + i) := by
  rcases h with h | h | h
  · subst h; rw [store_load_self]
  · exact store_apply_out w m d _ _ (by omega)
  · exact store_apply_out w m d _ _ (by omega)

theorem sameOrDisjoint_of_aligned (w a b : Nat) (ha : w ∣ a) (hb : w ∣ b) :
    SameOrDisjoint w a b := by
  obtain ⟨x, rfl⟩ := ha
  obtain ⟨y, rfl⟩ := hb
  unfold SameOrDisjoint
  rcases Nat.lt_trichotomy x y with h | h | h
  · right; left
    calc w * x + w = w * (x + 1) := by ring
      _ ≤ w * y := Nat.mul_le_mul_left w h
  · left; rw [h]
  · right; right
    calc w * y + w = w * (y + 1) := by ring
      _ ≤ w * x := Nat.mul_le_mul_left w h

/-! ## Facts about the reference-counting model -/

@[simp] theorem retainIn_fst (d : Domain) (p : Nat) (s : State World) :
    (retainIn d p s).1 = p := rfl

@[simp] theorem retainIn_mem (d : Domain) (p : Nat) (s : State World) :
    (retainIn d p s).2.mem = s.mem := rfl

@[simp] theorem releaseIn_mem (d : Domain) (p : Nat) (s : State World) :
    (releaseIn d p s).mem = s.mem := rfl

@[simp] theorem retainIn_log (d : Domain) (p : Nat) (s : State World) :
    (retainIn d p s).2.world.log = s.world.log ++ [⟨Op.retain, d, p, s.world.count d p + 1⟩] := rfl

@[simp] theorem releaseIn_log (d : Domain) (p : Nat) (s : State World) :
    (releaseIn d p s).world.log = s.world.log ++ [⟨Op.release, d, p, s.world.count d p - 1⟩] := rfl

@[simp] theorem retainIn_freed (d : Domain) (p : Nat) (s : State World) :
    (retainIn d p s).2.world.freed = s.world.freed := rfl

@[simp] theorem releaseIn_freed (d : Domain) (p : Nat) (s : State World) :
    (releaseIn d p s).world.freed =
      if s.world.count d p - 1 = 0 then s.world.freed ++ [(d, p)] else s.world.freed := rfl

@[simp] theorem retainIn_count (d : Domain) (p : Nat) (s : State World) (d1 : Domain) (q : Nat) :
    (retainIn d p s).2.world.count d1 q =
      if d1 = d ∧ q = p then s.world.count d p + 1 else s.world.count d1 q := rfl

@[simp] theorem releaseIn_count (d : Domain) (p : Nat) (s : State World) (d1 : Domain) (q : Nat) :
    (releaseIn d p s).world.count d1 q =
      if d1 = d ∧ q = p then s.world.count d p - 1 else s.world.count d1 q := rfl

/-- The copying assignment of either reference-counted table, over the model. -/
theorem rcTable_assignWithCopy (d : Domain) (pw dest src : Nat) (s : State World) :
    (rcTable d pw).assignWithCopy dest src s =
      (dest, { releaseIn d (load pw s.mem dest) (retainIn d (load pw s.mem src) s).2 with
        mem := store pw s.mem dest (load pw s.mem src) }) := by
  cases d <;> rfl

/-- The copying initialisations of either reference-counted table, over the model. -/
theorem rcTable_initializeWithCopy (d : Domain) (pw dest src : Nat) (s : State World) :
    (rcTable d pw).initializeWithCopy dest src s =
      (dest, { (retainIn d (load pw s.mem src) s).2 with
        mem := store pw s.mem dest (load pw s.mem src) }) := by
  cases d <;> rfl

/-- The destroy entry of either reference-counted table, over the model. -/
theorem rcTable_destroy (d : Domain) (pw var : Nat) (s : State World) :
    (rcTable d pw).destroy var s = releaseIn d (load pw s.mem var) s := by
  cases d <;> rfl

/-- The taking assignment of either reference-counted table, over the model. -/
theorem rcTable_assignWithTake (d : Domain) (pw dest src : Nat) (s : State World) :
    (rcTable d pw).assignWithTake dest src s =
      (dest, { releaseIn d (load pw s.mem dest) s with
        mem := store pw s.mem dest (load pw s.mem src) }) := by
  cases d <;> rfl

/-- The taking initialisation of either reference-counted table. -/
theorem rcTable_initializeWithTake (d : Domain) (pw dest src : Nat) (s : State World) :
    (rcTable d pw).initializeWithTake dest src s =
      (dest, { s with mem := store pw s.mem dest (load pw s.mem src) }) := by
  cases d <;> rfl

/-- A retain followed by a release of the same pointer restores every count. -/
theorem count_release_retain (d : Domain) (p : Nat) (s : State World) (m : Mem) :
    (releaseIn d p { (retainIn d p s).2 with mem := m }).world.count = s.world.count := by
  funext d1 q
  simp only [releaseIn_count]
  show (if d1 = d ∧ q = p then (retainIn d p s).2.world.count d p - 1
    else (retainIn d p s).2.world.count d1 q) = _
  simp only [retainIn_count, and_self, if_true, Nat.add_sub_cancel]
  split
  · next h => rw [h.1, h.2]
  · rfl

/-- The entries of a POD table that copy are all `copy` at the table's width. -/
theorem pod_table_cases (T : Builtin) (hT : T ∈ podBuiltins) {σ : Type} (E : Externs σ)
    (pw : Nat) :
    ∃ w, w ∈ [1, 2, 4, 8] ∧ T.table E pw = POD_VALUE_WITNESS_TABLE w w := by
  simp only [podBuiltins, List.mem_cons, List.mem_singleton, List.not_mem_nil, or_false] at hT
  rcases hT with rfl | rfl | rfl | rfl
  · exact ⟨1, by simp, rfl⟩
  · exact ⟨2, by simp, rfl⟩
  · exact ⟨4, by simp, rfl⟩
  · exact ⟨8, by simp, rfl⟩

theorem newCalls_self (w : World) : newCalls w w = [] := by
  simp [newCalls]

theorem newCalls_of_log (w w1 : World) (l : List Call) (h : w1.log = w.log ++ l) :
    newCalls w w1 = l.map fun c => (c.op, c.dom, c.ptr) := by
  unfold newCalls calls
  rw [h, List.map_append, List.drop_left]

/-- What each entry of a reference-counted table does over the model: the
returned pointer, the resulting memory and the calls it logs. -/
theorem rcTable_call (d : Domain) (pw : Nat) (e : Entry) (a b : Nat) (s : State World) :
    ((rcTable d pw).call e a b s).1 =
      (match e with
       | Entry.destroyBuffer | Entry.deallocateBuffer | Entry.destroy => none
       | _ => some a) ∧
    ((rcTable d pw).call e a b s).2.mem =
      (match e with
       | Entry.destroyBuffer | Entry.deallocateBuffer | Entry.destroy
       | Entry.projectBuffer | Entry.allocateBuffer => s.mem
       | _ => store pw s.mem a (load pw s.mem b)) ∧
    newCalls s.world ((rcTable d pw).call e a b s).2.world =
      (match e with
       | Entry.destroyBuffer | Entry.destroy => [(Op.release, d, load pw s.mem a)]
       | Entry.initializeBufferWithCopyOfBuffer | Entry.initializeBufferWithCopy
       | Entry.initializeWithCopy => [(Op.retain, d, load pw s.mem b)]
       | Entry.assignWithCopy =>
         [(Op.retain, d, load pw s.mem b), (Op.release, d, load pw s.mem a)]
       | Entry.assignWithTake => [(Op.release, d, load pw s.mem a)]
       | _ => []) := by
  have rel : ∀ p, newCalls s.world (releaseIn d p s).world = [(Op.release, d, p)] :=
    fun p => newCalls_of_log _ _ _ (releaseIn_log d p s)
  have ret : ∀ p, newCalls s.world (retainIn d p s).2.world = [(Op.retain, d, p)] :=
    fun p => newCalls_of_log _ _ _ (retainIn_log d p s)
  have both : ∀ p q, newCalls s.world (releaseIn d q (retainIn d p s).2).world =
      [(Op.retain, d, p), (Op.release, d, q)] := by
    intro p q
    refine newCalls_of_log _ _ [⟨Op.retain, d, p, s.world.count d p + 1⟩,
      ⟨Op.release, d, q, (retainIn d p s).2.world.count d q - 1⟩] ?_
    rw [releaseIn_log, retainIn_log, List.append_assoc]
    rfl
  cases d <;> cases e <;>
    first
    | exact ⟨rfl, rfl, newCalls_self _⟩
    | exact ⟨rfl, rfl, rel _⟩
    | exact ⟨rfl, rfl, ret _⟩
    | exact ⟨rfl, rfl, both _ _⟩

/-- Each entry of a built-in table is the function its initialiser names at
that position. -/
theorem table_entry_of_initializer (T : Builtin) {σ : Type} (E : Externs σ) (pw : Nat)
    (e : Entry) :
    ∃ f, (fnPointers (T.initializer pw)).get? e.index = some (some f) ∧
      ∀ a b s, (T.table E pw).call e a b s = f.run E pw a b s := by
  cases T <;> cases e <;> exact ⟨_, rfl, fun _ _ _ => rfl⟩

/-- The three integers of an initialiser are the layout constants of the table. -/
theorem table_layout_of_initializer (T : Builtin) {σ : Type} (E : Externs σ) (pw : Nat) :
    integers (T.initializer pw) =
      [(T.table E pw).size, (T.table E pw).alignment, (T.table E pw).stride] := by
  cases T <;> rfl

/-! ## The claims -/

/-- C1: for the native and the foreign table, `assignWithCopy(dest, src)`
makes exactly two primitive calls, in this order: a retain of the pointer held
in `src`, then a release of the pointer `dest` held before the call; the only
change to memory is the store of the source pointer into `dest`, which then
holds it; the operation returns `dest`.  The store comes last: primitives that
watch `dest` see it still holding its old pointer at both calls. -/
theorem C1_assignWithCopy_retain_release_store (d : Domain) (pw dest src : Nat)
    (s : State World) :
    ((rcTable d pw).assignWithCopy dest src s).1 = dest ∧
    calls ((rcTable d pw).assignWithCopy dest src s).2.world =
      calls s.world ++
        [(Op.retain, d, load pw s.mem src), (Op.release, d, load pw s.mem dest)] ∧
    ((rcTable d pw).assignWithCopy dest src s).2.mem =
      store pw s.mem dest (load pw s.mem src) ∧
    load pw ((rcTable d pw).assignWithCopy dest src s).2.mem dest = load pw s.mem src ∧
    (∀ t : State (List (Op × Domain × Nat × Nat)),
      ((_TWVBo (watchExterns pw dest) pw).assignWithCopy dest src t).2.world =
        t.world ++ [(Op.retain, Domain.native, load pw t.mem src, load pw t.mem dest),
                    (Op.release, Domain.native, load pw t.mem dest, load pw t.mem dest)] ∧
      ((_TWVBO (watchExterns pw dest) pw).assignWithCopy dest src t).2.world =
        t.world ++ [(Op.retain, Domain.foreign, load pw t.mem src, load pw t.mem dest),
                    (Op.release, Domain.foreign, load pw t.mem dest, load pw t.mem dest)]) := by
  rw [rcTable_assignWithCopy]
  refine ⟨rfl, ?_, rfl, load_store_load pw s.mem dest src, ?_⟩
  · simp [calls]
  · intro t
    constructor
    · show (t.world ++ _) ++ _ = _
      rw [List.append_assoc]; rfl
    · show (t.world ++ _) ++ _ = _
      rw [List.append_assoc]; rfl

/-- C2: self-assignment is safe.  If slot `x` of a reference-counted table
holds a pointer `p` whose count is `n ≥ 1`, then `assignWithCopy(x, x)` logs
exactly a retain of `p` that leaves the count at `n + 1` followed by a release
of `p` that leaves it at `n`, so no call leaves a count of zero; nothing is
freed, every count ends at its initial value and memory (hence `x`) is
unchanged. -/
theorem C2_assignWithCopy_self_safe (d : Domain) (pw x : Nat) (s : State World)
    (hn : 1 ≤ s.world.count d (load pw s.mem x)) :
    ((rcTable d pw).assignWithCopy x x s).2.world.log =
      s.world.log ++
        [⟨Op.retain, d, load pw s.mem x, s.world.count d (load pw s.mem x) + 1⟩,
         ⟨Op.release, d, load pw s.mem x, s.world.count d (load pw s.mem x)⟩] ∧
    (∀ c ∈ (((rcTable d pw).assignWithCopy x x s).2.world.log).drop s.world.log.length,
      c.after ≠ 0) ∧
    ((rcTable d pw).assignWithCopy x x s).2.world.freed = s.world.freed ∧
    ((rcTable d pw).assignWithCopy x x s).2.world.count = s.world.count ∧
    ((rcTable d pw).assignWithCopy x x s).2.mem = s.mem ∧
    load pw ((rcTable d pw).assignWithCopy x x s).2.mem x = load pw s.mem x := by
  rw [rcTable_assignWithCopy]
  have hlog : (releaseIn d (load pw s.mem x) (retainIn d (load pw s.mem x) s).2).world.log =
      s.world.log ++
        [⟨Op.retain, d, load pw s.mem x, s.world.count d (load pw s.mem x) + 1⟩,
         ⟨Op.release, d, load pw s.mem x, s.world.count d (load pw s.mem x)⟩] := by
    simp
  refine ⟨hlog, ?_, ?_, ?_, ?_, ?_⟩
  · show ∀ c ∈ ((releaseIn d (load pw s.mem x)
        (retainIn d (load pw s.mem x) s).2).world.log).drop s.world.log.length, c.after ≠ 0
    rw [hlog, List.drop_left]
    intro c hc
    simp only [List.mem_cons, List.mem_singleton, List.not_mem_nil, or_false] at hc
    rcases hc with rfl | rfl
    · exact Nat.succ_ne_zero _
    · exact Nat.ne_of_gt hn
  · show (releaseIn d (load pw s.mem x) (retainIn d (load pw s.mem x) s).2).world.freed = _
    simp
    omega
  · show (releaseIn d (load pw s.mem x) (retainIn d (load pw s.mem x) s).2).world.count = _
    funext d1 q
    simp only [releaseIn_count, retainIn_count, and_self, if_true, Nat.add_sub_cancel]
    split
    · next h => rw [h.1, h.2]
    · rfl
  · exact store_load_self pw s.mem x
  · show load pw (store pw s.mem x (load pw s.mem x)) x = _
    rw [store_load_self]

/-- Witness of C2: the native table on `demoState`, slot 0 (which holds `0x1000`, count 1). -/
theorem C2_assignWithCopy_self_safe_witness :
    1 ≤ demoState.world.count Domain.native (load 8 demoState.mem 0) ∧
    ((rcTable Domain.native 8).assignWithCopy 0 0 demoState).2.world.log =
      [⟨Op.retain, Domain.native, 0x1000, 2⟩, ⟨Op.release, Domain.native, 0x1000, 1⟩] ∧
    ((rcTable Domain.native 8).assignWithCopy 0 0 demoState).2.world.freed = [] := by
  have h := C2_assignWithCopy_self_safe Domain.native 8 0 demoState (by decide)
  have hp : load 8 demoState.mem 0 = 0x1000 := by decide
  refine ⟨by decide, ?_, h.2.2.1⟩
  rw [h.1, hp]
  rfl

/-- C3: native table.  Let slot `slot` hold the object `p` whose count is
`n ≥ 1`, and let `dest` be a slot (the same cell or a disjoint one).  Then
`initializeWithCopy(dest, slot)` makes the count `n + 1` and leaves `dest`
holding `p`; `destroy(slot)` then makes it `n`; `destroy(dest)` then makes it
`n - 1`.  Nothing is freed by the first two calls, and the last one frees `p`
exactly when `n = 1`. -/
theorem C3_native_copy_destroy_destroy (pw dest slot : Nat) (s : State World) (n : Nat)
    (hcount : s.world.count Domain.native (load pw s.mem slot) = n) (hn : 1 ≤ n)
    (hd : SameOrDisjoint pw dest slot) :
    let T := _TWVBo refExterns pw
    let p := load pw s.mem slot
    let s1 := (T.initializeWithCopy dest slot s).2
    let s2 := T.destroy slot s1
    let s3 := T.destroy dest s2
    s1.world.count Domain.native p = n + 1 ∧ load pw s1.mem dest = p ∧
    s2.world.count Domain.native p = n ∧
    s3.world.count Domain.native p = n - 1 ∧
    s1.world.freed = s.world.freed ∧ s2.world.freed = s.world.freed ∧
    s3.world.freed = (if n = 1 then s.world.freed ++ [(Domain.native, p)] else s.world.freed) ∧
    s3.world.log = s.world.log ++
      [⟨Op.retain, Domain.native, p, n + 1⟩, ⟨Op.release, Domain.native, p, n⟩,
       ⟨Op.release, Domain.native, p, n - 1⟩] := by
  intro T p s1 s2 s3
  have e1 : s1 = { (retainIn Domain.native p s).2 with mem := store pw s.mem dest p } := rfl
  have m1 : s1.mem = store pw s.mem dest p := rfl
  have l1 : load pw s1.mem slot = p := by rw [m1]; exact load_src_after_copy pw s.mem dest slot hd
  have e2 : s2 = releaseIn Domain.native p s1 := by
    show releaseIn Domain.native (load pw s1.mem slot) s1 = _
    rw [l1]
  have l2 : load pw s2.mem dest = p := by
    rw [e2, releaseIn_mem, m1]; exact load_store_load pw s.mem dest slot
  have e3 : s3 = releaseIn Domain.native p s2 := by
    show releaseIn Domain.native (load pw s2.mem dest) s2 = _
    rw [l2]
  have c1 : s1.world.count Domain.native p = n + 1 := by
    rw [e1]; show (retainIn Domain.native p s).2.world.count Domain.native p = n + 1
    simp [hcount]
  have c2 : s2.world.count Domain.native p = n := by
    rw [e2]; simp [c1]
  have c3 : s3.world.count Domain.native p = n - 1 := by
    rw [e3]; simp [c2]
  have f1 : s1.world.freed = s.world.freed := rfl
  have f2 : s2.world.freed = s.world.freed := by
    rw [e2, releaseIn_freed, c1, f1, if_neg]; omega
  have f3 : s3.world.freed =
      (if n = 1 then s.world.freed ++ [(Domain.native, p)] else s.world.freed) := by
    rw [e3, releaseIn_freed, c2, f2]
    by_cases h : n = 1
    · simp [h]
    · rw [if_neg (by omega), if_neg h]
  have g1 : s1.world.log = s.world.log ++ [⟨Op.retain, Domain.native, p, n + 1⟩] := by
    rw [e1]; show (retainIn Domain.native p s).2.world.log = _
    rw [retainIn_log, hcount]
  have g2 : s2.world.log = s.world.log ++
      [⟨Op.retain, Domain.native, p, n + 1⟩, ⟨Op.release, Domain.native, p, n⟩] := by
    rw [e2, releaseIn_log, c1, g1]; simp
  have g3 : s3.world.log = s.world.log ++
      [⟨Op.retain, Domain.native, p, n + 1⟩, ⟨Op.release, Domain.native, p, n⟩,
       ⟨Op.release, Domain.native, p, n - 1⟩] := by
    rw [e3, releaseIn_log, c2, g2]; simp
  exact ⟨c1, by rw [m1]; exact load_store_load pw s.mem dest slot, c2, c3, f1, f2, f3, g3⟩

/-- Witness of C3: on `demoState` the object `0x1000` of slot 0 has count 1;
copying it into slot 8 and destroying both slots takes the count through
2, 1, 0 and frees the object at the last destroy only. -/
theorem C3_native_copy_destroy_destroy_witness :
    ((_TWVBo refExterns 8).initializeWithCopy 8 0 demoState).2.world.count Domain.native 0x1000 = 2 ∧
    ((_TWVBo refExterns 8).destroy 0
      ((_TWVBo refExterns 8).initializeWithCopy 8 0 demoState).2).world.count
        Domain.native 0x1000 = 1 ∧
    ((_TWVBo refExterns 8).destroy 8 ((_TWVBo refExterns 8).destroy 0
      ((_TWVBo refExterns 8).initializeWithCopy 8 0 demoState).2)).world.count
        Domain.native 0x1000 = 0 ∧
    ((_TWVBo refExterns 8).destroy 0
      ((_TWVBo refExterns 8).initializeWithCopy 8 0 demoState).2).world.freed = [] ∧
    ((_TWVBo refExterns 8).destroy 8 ((_TWVBo refExterns 8).destroy 0
      ((_TWVBo refExterns 8).initializeWithCopy 8 0 demoState).2)).world.freed =
        [(Domain.native, 0x1000)] := by
  have hp : load 8 demoState.mem 0 = 0x1000 := by decide
  have h := C3_native_copy_destroy_destroy 8 8 0 demoState 1 (by decide) (by decide) (by decide)
  simp only [hp] at h
  exact ⟨h.1, h.2.2.1, h.2.2.2.1, h.2.2.2.2.2.1, h.2.2.2.2.2.2.1⟩

/-- C4, refuted as stated: on `demoState` the native table's
`initializeWithTake(8, 0)` followed by `destroy(8)` does not log one retain and
one release with the count of the moved object `0x1000` unchanged. -/
theorem C4_take_destroy_pair_counterexample :
    ¬ ((((_TWVBo refExterns 8).destroy 8
          ((_TWVBo refExterns 8).initializeWithTake 8 0 demoState).2).world.log.filter
            (fun c => c.op = Op.retain)).length = 1 ∧
       (((_TWVBo refExterns 8).destroy 8
          ((_TWVBo refExterns 8).initializeWithTake 8 0 demoState).2).world.log.filter
            (fun c => c.op = Op.release)).length = 1 ∧
       ((_TWVBo refExterns 8).destroy 8
          ((_TWVBo refExterns 8).initializeWithTake 8 0 demoState).2).world.count
            Domain.native 0x1000 = demoState.world.count Domain.native 0x1000) := by
  decide

/-- C4, amended: for every built-in table, `initializeWithTake(dest, src)`
followed by `destroy(dest)` makes, for a reference-counted table, no retain and
exactly one release, of the value `src` held, whose count thereby falls by one
while every other count stays; for a POD table it makes no call at all. -/
theorem C4_take_destroy_one_release (T : Builtin) (pw dest src : Nat) (s : State World) :
    (∀ d, T.domain = some d →
      calls ((T.table refExterns pw).destroy dest
          ((T.table refExterns pw).initializeWithTake dest src s).2).world =
        calls s.world ++ [(Op.release, d, load pw s.mem src)] ∧
      ((T.table refExterns pw).destroy dest
          ((T.table refExterns pw).initializeWithTake dest src s).2).world.count d
            (load pw s.mem src) = s.world.count d (load pw s.mem src) - 1 ∧
      ∀ d1 q, ¬ (d1 = d ∧ q = load pw s.mem src) →
        ((T.table refExterns pw).destroy dest
          ((T.table refExterns pw).initializeWithTake dest src s).2).world.count d1 q =
            s.world.count d1 q) ∧
    (T ∈ podBuiltins →
      ((T.table refExterns pw).destroy dest
          ((T.table refExterns pw).initializeWithTake dest src s).2).world.log = s.world.log ∧
      ((T.table refExterns pw).destroy dest
          ((T.table refExterns pw).initializeWithTake dest src s).2).world.count =
            s.world.count) := by
  have key : ∀ d : Domain,
      (rcTable d pw).destroy dest ((rcTable d pw).initializeWithTake dest src s).2 =
        releaseIn d (load pw s.mem src)
          { s with mem := store pw s.mem dest (load pw s.mem src) } := by
    intro d
    rw [rcTable_initializeWithTake, rcTable_destroy]
    show releaseIn d (load pw (store pw s.mem dest (load pw s.mem src)) dest) _ = _
    rw [load_store_load]
  constructor
  · intro d hd
    have hT : T.table refExterns pw = rcTable d pw := by
      cases T <;> cases d <;> simp [Builtin.domain] at hd <;> rfl
    rw [hT, key d]
    refine ⟨by simp [calls], by simp, ?_⟩
    intro d1 q hne
    simp [hne]
  · intro hT
    obtain ⟨w, -, hw⟩ := pod_table_cases T hT refExterns pw
    rw [hw]
    exact ⟨rfl, rfl⟩

/-- Witness of C4 (amended): the native table on `demoState`, taking slot 0 into
slot 8 and destroying slot 8, logs the single call `release 0x1000`. -/
theorem C4_take_destroy_one_release_witness :
    calls ((Builtin.Bo.table refExterns 8).destroy 8
        ((Builtin.Bo.table refExterns 8).initializeWithTake 8 0 demoState).2).world =
      [(Op.release, Domain.native, 0x1000)] ∧
    ((Builtin.Bi64_.table refExterns 8).destroy 8
        ((Builtin.Bi64_.table refExterns 8).initializeWithTake 8 0 demoState).2).world.log = [] := by
  have hp : load 8 demoState.mem 0 = 0x1000 := by decide
  have h := (C4_take_destroy_one_release Builtin.Bo 8 8 0 demoState).1 Domain.native rfl
  have h2 := (C4_take_destroy_one_release Builtin.Bi64_ 8 8 0 demoState).2 (by decide)
  rw [hp] at h
  exact ⟨h.1, h2.1⟩

/-- C5: copy does not mutate its source.  For every built-in table, of value
size `W`, and every source cell `a` that does not partially overlap `dest`
(in particular every slot distinct from `dest`), `initializeWithCopy(dest, a)`
followed by `destroy(dest)` leaves each of the `W` bytes of `a` as it was and
leaves every reference count, in particular that of the object `a` refers to,
at its previous value. -/
theorem C5_copy_then_destroy_preserves_source (T : Builtin) (pw dest a : Nat)
    (s : State World) (hd : SameOrDisjoint (T.table refExterns pw).size dest a) :
    (∀ i, i < (T.table refExterns pw).size →
      ((T.table refExterns pw).destroy dest
        ((T.table refExterns pw).initializeWithCopy dest a s).2).mem (a + i) = s.mem (a + i)) ∧
    ((T.table refExterns pw).destroy dest
      ((T.table refExterns pw).initializeWithCopy dest a s).2).world.count = s.world.count := by
  have pod : ∀ w : Nat, SameOrDisjoint w dest a →
      (∀ i, i < w →
        ((POD_VALUE_WITNESS_TABLE w w : ValueWitnessTable World).destroy dest
          ((POD_VALUE_WITNESS_TABLE w w : ValueWitnessTable World).initializeWithCopy
            dest a s).2).mem (a + i) = s.mem (a + i)) ∧
      ((POD_VALUE_WITNESS_TABLE w w : ValueWitnessTable World).destroy dest
        ((POD_VALUE_WITNESS_TABLE w w : ValueWitnessTable World).initializeWithCopy
          dest a s).2).world.count = s.world.count := by
    intro w h
    exact ⟨fun i hi => bytes_src_after_copy w s.mem dest a h i hi, rfl⟩
  have rc : ∀ d : Domain, SameOrDisjoint pw dest a →
      (∀ i, i < pw →
        ((rcTable d pw).destroy dest ((rcTable d pw).initializeWithCopy dest a s).2).mem (a + i) =
          s.mem (a + i)) ∧
      ((rcTable d pw).destroy dest ((rcTable d pw).initializeWithCopy dest a s).2).world.count =
        s.world.count := by
    intro d h
    rw [rcTable_initializeWithCopy, rcTable_destroy]
    have hl : load pw (store pw s.mem dest (load pw s.mem a)) dest = load pw s.mem a :=
      load_store_load pw s.mem dest a
    constructor
    · intro i hi
      rw [releaseIn_mem]
      exact bytes_src_after_copy pw s.mem dest a h i hi
    · show (releaseIn d (load pw (store pw s.mem dest (load pw s.mem a)) dest) _).world.count = _
      rw [hl]
      exact count_release_retain d (load pw s.mem a) s _
  cases T
  · exact pod 1 hd
  · exact pod 2 hd
  · exact pod 4 hd
  · exact pod 8 hd
  · exact rc Domain.native hd
  · exact rc Domain.foreign hd

/-- Witness of C5: the native table on `demoState`, copying slot 0 into slot 8
and destroying slot 8. -/
theorem C5_copy_then_destroy_preserves_source_witness :
    SameOrDisjoint (Builtin.Bo.table refExterns 8).size 8 0 ∧
    ((Builtin.Bo.table refExterns 8).destroy 8
      ((Builtin.Bo.table refExterns 8).initializeWithCopy 8 0 demoState).2).mem 0 =
        demoState.mem 0 ∧
    ((Builtin.Bo.table refExterns 8).destroy 8
      ((Builtin.Bo.table refExterns 8).initializeWithCopy 8 0 demoState).2).world.count =
        demoState.world.count :=
  ⟨by decide,
   (C5_copy_then_destroy_preserves_source Builtin.Bo 8 8 0 demoState (by decide)).1 0 (by decide),
   (C5_copy_then_destroy_preserves_source Builtin.Bo 8 8 0 demoState (by decide)).2⟩

/-- C6: in the native table each of `initializeWithCopy`,
`initializeBufferWithCopy` and `initializeBufferWithCopyOfBuffer` returns
`dest`, makes exactly one call, a retain of the pointer held in the source,
leaves `dest` holding that pointer and (for a source cell that does not
partially overlap `dest`) leaves the source bytes unchanged; each of
`initializeWithTake` and `initializeBufferWithTake` leaves `dest` holding the
source pointer and makes no call at all. -/
theorem C6_native_initialize_copy_and_take (pw dest src : Nat) (s : State World) :
    (∀ f ∈ [(_TWVBo refExterns pw).initializeWithCopy,
            (_TWVBo refExterns pw).initializeBufferWithCopy,
            (_TWVBo refExterns pw).initializeBufferWithCopyOfBuffer],
      (f dest src s).1 = dest ∧
      calls (f dest src s).2.world =
        calls s.world ++ [(Op.retain, Domain.native, load pw s.mem src)] ∧
      load pw (f dest src s).2.mem dest = load pw s.mem src ∧
      (SameOrDisjoint pw dest src →
        load pw (f dest src s).2.mem src = load pw s.mem src ∧
        ∀ i, i < pw → (f dest src s).2.mem (src + i) = s.mem (src + i))) ∧
    (∀ f ∈ [(_TWVBo refExterns pw).initializeWithTake,
            (_TWVBo refExterns pw).initializeBufferWithTake],
      (f dest src s).1 = dest ∧
      (f dest src s).2.world.log = s.world.log ∧
      (f dest src s).2.world.count = s.world.count ∧
      (f dest src s).2.world.freed = s.world.freed ∧
      load pw (f dest src s).2.mem dest = load pw s.mem src) := by
  constructor
  · intro f hf
    have hf1 : f = initWithRetain refExterns pw := by
      simp only [List.mem_cons, List.mem_singleton, List.not_mem_nil, or_false] at hf
      rcases hf with rfl | rfl | rfl <;> rfl
    subst hf1
    refine ⟨rfl, ?_, load_store_load pw s.mem dest src, ?_⟩
    · show calls (retainIn Domain.native (load pw s.mem src) s).2.world = _
      simp [calls]
    · intro h
      exact ⟨load_src_after_copy pw s.mem dest src h,
        fun i hi => bytes_src_after_copy pw s.mem dest src h i hi⟩
  · intro f hf
    have hf1 : f = copy pw := by
      simp only [List.mem_cons, List.mem_singleton, List.not_mem_nil, or_false] at hf
      rcases hf with rfl | rfl <;> rfl
    subst hf1
    exact ⟨rfl, rfl, rfl, rfl, load_store_load pw s.mem dest src⟩

/-- Witness of C6: `initializeWithCopy(8, 0)` of the native table on `demoState`. -/
theorem C6_native_initialize_copy_and_take_witness :
    calls ((_TWVBo refExterns 8).initializeWithCopy 8 0 demoState).2.world =
      [(Op.retain, Domain.native, 0x1000)] ∧
    load 8 ((_TWVBo refExterns 8).initializeWithCopy 8 0 demoState).2.mem 8 = 0x1000 ∧
    load 8 ((_TWVBo refExterns 8).initializeWithCopy 8 0 demoState).2.mem 0 = 0x1000 ∧
    ((_TWVBo refExterns 8).initializeWithTake 8 0 demoState).2.world.log = [] := by
  have hp : load 8 demoState.mem 0 = 0x1000 := by decide
  have h := (C6_native_initialize_copy_and_take 8 8 0 demoState).1
    (_TWVBo refExterns 8).initializeWithCopy (List.mem_cons_self _ _)
  have h2 := (C6_native_initialize_copy_and_take 8 8 0 demoState).2
    (_TWVBo refExterns 8).initializeWithTake (List.mem_cons_self _ _)
  rw [hp] at h
  exact ⟨h.2.1, h.2.2.1, (h.2.2.2 (by decide)).1, h2.2.1⟩

/-- C7: for the native and the foreign table and cells `dest`, `src` that do
not partially overlap (in particular distinct slots), `assignWithTake(dest,
src)` returns `dest`, makes exactly one call, a release of the pointer `dest`
held before, leaves `dest` holding the pointer `src` held and leaves the bytes
of `src` unchanged. -/
theorem C7_assignWithTake_release_then_store (d : Domain) (pw dest src : Nat)
    (s : State World) (hd : SameOrDisjoint pw dest src) :
    ((rcTable d pw).assignWithTake dest src s).1 = dest ∧
    calls ((rcTable d pw).assignWithTake dest src s).2.world =
      calls s.world ++ [(Op.release, d, load pw s.mem dest)] ∧
    load pw ((rcTable d pw).assignWithTake dest src s).2.mem dest = load pw s.mem src ∧
    (∀ i, i < pw →
      ((rcTable d pw).assignWithTake dest src s).2.mem (src + i) = s.mem (src + i)) := by
  rw [rcTable_assignWithTake]
  refine ⟨rfl, by simp [calls], load_store_load pw s.mem dest src, ?_⟩
  intro i hi
  exact bytes_src_after_copy pw s.mem dest src hd i hi

/-- Witness of C7: the foreign table on `demoState`, taking slot 0 into slot 8. -/
theorem C7_assignWithTake_release_then_store_witness :
    SameOrDisjoint 8 8 0 ∧
    calls ((rcTable Domain.foreign 8).assignWithTake 8 0 demoState).2.world =
      [(Op.release, Domain.foreign, 0x2000)] ∧
    load 8 ((rcTable Domain.foreign 8).assignWithTake 8 0 demoState).2.mem 8 = 0x1000 := by
  have hp : load 8 demoState.mem 0 = 0x1000 := by decide
  have hq : load 8 demoState.mem 8 = 0x2000 := by decide
  have h := C7_assignWithTake_release_then_store Domain.foreign 8 8 0 demoState (by decide)
  rw [hp, hq] at h
  exact ⟨by decide, h.2.1, h.2.2.1⟩

/-- C8: the foreign table is the native table with the primitives renamed.
For arbitrary primitives, `_TWVBO` is `_TWVBo` with the `swift_` and `objc_`
pairs exchanged (all twelve entries and the three layout constants), neither
table depends on the other pair, and over the reference-counting model every
entry of the foreign table returns the same pointer, produces the same memory
and logs the same calls as the native entry, relabelled foreign; the calls of
the native table are all native and those of the foreign table all foreign. -/
theorem C8_foreign_table_isomorphic_to_native :
    (∀ (σ : Type) (E : Externs σ) (pw : Nat), _TWVBO E pw = _TWVBo E.swap pw) ∧
    (∀ (σ : Type) (E : Externs σ) (pw : Nat) (r : Nat → State σ → Nat × State σ)
        (l : Nat → State σ → State σ),
      _TWVBo { E with objc_retain := r, objc_release := l } pw = _TWVBo E pw ∧
      _TWVBO { E with swift_retain := r, swift_release := l } pw = _TWVBO E pw) ∧
    (∀ (pw : Nat) (e : Entry) (a b : Nat) (s : State World),
      ((_TWVBO refExterns pw).call e a b s).1 = ((_TWVBo refExterns pw).call e a b s).1 ∧
      ((_TWVBO refExterns pw).call e a b s).2.mem = ((_TWVBo refExterns pw).call e a b s).2.mem ∧
      newCalls s.world ((_TWVBO refExterns pw).call e a b s).2.world =
        (newCalls s.world ((_TWVBo refExterns pw).call e a b s).2.world).map
          (inDomain Domain.foreign) ∧
      (∀ c ∈ newCalls s.world ((_TWVBo refExterns pw).call e a b s).2.world,
        c.2.1 = Domain.native) ∧
      (∀ c ∈ newCalls s.world ((_TWVBO refExterns pw).call e a b s).2.world,
        c.2.1 = Domain.foreign)) := by
  refine ⟨fun _ _ _ => rfl, fun _ _ _ _ _ => ⟨rfl, rfl⟩, ?_⟩
  intro pw e a b s
  have hN := rcTable_call Domain.native pw e a b s
  have hF := rcTable_call Domain.foreign pw e a b s
  simp only [rcTable] at hN hF
  refine ⟨?_, ?_, ?_, ?_, ?_⟩
  · rw [hN.1, hF.1]
  · rw [hN.2.1, hF.2.1]
  · rw [hN.2.2, hF.2.2]; cases e <;> rfl
  · rw [hN.2.2]; cases e <;> simp
  · rw [hF.2.2]; cases e <;> simp

/-- Witness of C8: `assignWithCopy(8, 0)` on `demoState` in both tables. -/
theorem C8_foreign_table_isomorphic_to_native_witness :
    newCalls demoState.world
        ((_TWVBo refExterns 8).call Entry.assignWithCopy 8 0 demoState).2.world =
      [(Op.retain, Domain.native, 0x1000), (Op.release, Domain.native, 0x2000)] ∧
    newCalls demoState.world
        ((_TWVBO refExterns 8).call Entry.assignWithCopy 8 0 demoState).2.world =
      [(Op.retain, Domain.foreign, 0x1000), (Op.release, Domain.foreign, 0x2000)] ∧
    (Op.retain, Domain.native, 0x1000).2.1 = Domain.native := by
  have hN : newCalls demoState.world
      ((_TWVBo refExterns 8).call Entry.assignWithCopy 8 0 demoState).2.world =
      [(Op.retain, Domain.native, 0x1000), (Op.release, Domain.native, 0x2000)] := by decide
  have h := C8_foreign_table_isomorphic_to_native.2.2 8 Entry.assignWithCopy 8 0 demoState
  refine ⟨hN, ?_, h.2.2.2.1 _ ?_⟩
  · rw [h.2.2.1, hN]; rfl
  · rw [hN]; exact List.mem_cons_self _ _

/-- C9: for every POD table, of width `W`, and every value `v` held in the first
`W` bytes of a source buffer, `initializeBufferWithCopyOfBuffer(dest, src)`
followed by `projectBuffer(dest)` yields a pointer to `W` bytes that equal
those of the source and read as `v`; that pointer is the one the copy
returned, no call is logged, and a source buffer that does not partially
overlap `dest` still holds `v`. -/
theorem C9_pod_copy_of_buffer_then_project (T : Builtin) (hT : T ∈ podBuiltins) (pw : Nat)
    (dest src v : Nat) (s : State World)
    (hv : load (T.table refExterns pw).size s.mem src = v) :
    let tbl := T.table refExterns pw
    let r := tbl.initializeBufferWithCopyOfBuffer dest src s
    let q := tbl.projectBuffer dest r.2
    tbl.size ∈ [1, 2, 4, 8] ∧
    load tbl.size q.2.mem q.1 = v ∧
    (∀ i, i < tbl.size → q.2.mem (q.1 + i) = s.mem (src + i)) ∧
    r.1 = q.1 ∧
    q.2.world.log = s.world.log ∧
    (SameOrDisjoint tbl.size dest src → load tbl.size q.2.mem src = v) := by
  intro tbl r q
  obtain ⟨w, hw, hTw⟩ := pod_table_cases T hT refExterns pw
  have htbl : tbl = POD_VALUE_WITNESS_TABLE w w := hTw
  have hsize : tbl.size = w := by rw [htbl]; rfl
  have hq1 : q.1 = dest := by
    show (tbl.projectBuffer dest r.2).1 = dest
    rw [htbl]; rfl
  have hqm : q.2.mem = store w s.mem dest (load w s.mem src) := by
    show (tbl.projectBuffer dest (tbl.initializeBufferWithCopyOfBuffer dest src s).2).2.mem = _
    rw [htbl]; rfl
  have hr1 : r.1 = dest := by
    show (tbl.initializeBufferWithCopyOfBuffer dest src s).1 = dest
    rw [htbl]; rfl
  have hlog : q.2.world.log = s.world.log := by
    show (tbl.projectBuffer dest (tbl.initializeBufferWithCopyOfBuffer dest src s).2).2.world.log = _
    rw [htbl]; rfl
  have hv1 : load w s.mem src = v := by rw [← hsize]; exact hv
  rw [hsize, hq1, hqm, hr1]
  refine ⟨hw, ?_, ?_, rfl, hlog, ?_⟩
  · rw [load_store_load, hv1]
  · intro i hi
    rw [store_load_apply, if_pos ⟨by omega, by omega⟩, Nat.add_sub_cancel_left]
  · intro h
    rw [load_src_after_copy w s.mem dest src h, hv1]

/-- Witness of C9: the POD-8 table on `podState`, whose source buffer at
address 24 holds `0x1122334455667788`; the destination buffer is at 0. -/
theorem C9_pod_copy_of_buffer_then_project_witness :
    load 8 podState.mem 24 = 0x1122334455667788 ∧
    load 8 (_TWVBi64_.projectBuffer 0
      (_TWVBi64_.initializeBufferWithCopyOfBuffer 0 24 podState).2).2.mem
      (_TWVBi64_.projectBuffer 0
        (_TWVBi64_.initializeBufferWithCopyOfBuffer 0 24 podState).2).1 = 0x1122334455667788 ∧
    (_TWVBi64_.initializeBufferWithCopyOfBuffer 0 24 podState).1 =
      (_TWVBi64_.projectBuffer 0
        (_TWVBi64_.initializeBufferWithCopyOfBuffer 0 24 podState).2).1 ∧
    load 8 (_TWVBi64_.projectBuffer 0
      (_TWVBi64_.initializeBufferWithCopyOfBuffer 0 24 podState).2).2.mem 24 =
        0x1122334455667788 := by
  have h := C9_pod_copy_of_buffer_then_project Builtin.Bi64_ (by decide) 8 0 24
    0x1122334455667788 podState (by decide)
  exact ⟨by decide, h.2.1, h.2.2.2.1, h.2.2.2.2.2 (by decide)⟩

/-- C10: in every POD table take is copy.  The seven entries
`initializeBufferWithCopyOfBuffer`, `initializeBufferWithCopy`,
`initializeWithCopy`, `assignWithCopy`, `initializeBufferWithTake`,
`initializeWithTake` and `assignWithTake` are one and the same function,
`copy` at the width of the table, so each take entry gives the same memory,
state and returned pointer as the corresponding copy entry on every input. -/
theorem C10_pod_take_is_copy (T : Builtin) (hT : T ∈ podBuiltins) (σ : Type) (E : Externs σ)
    (pw : Nat) :
    (∀ f ∈ [(T.table E pw).initializeBufferWithCopyOfBuffer,
            (T.table E pw).initializeBufferWithCopy,
            (T.table E pw).initializeWithCopy,
            (T.table E pw).assignWithCopy,
            (T.table E pw).initializeBufferWithTake,
            (T.table E pw).initializeWithTake,
            (T.table E pw).assignWithTake],
      f = copy (T.table E pw).size) ∧
    (∀ (dest src : Nat) (s : State σ),
      (T.table E pw).initializeBufferWithTake dest src s =
        (T.table E pw).initializeBufferWithCopy dest src s ∧
      (T.table E pw).initializeWithTake dest src s =
        (T.table E pw).initializeWithCopy dest src s ∧
      (T.table E pw).assignWithTake dest src s =
        (T.table E pw).assignWithCopy dest src s) := by
  obtain ⟨w, -, hw⟩ := pod_table_cases T hT E pw
  rw [hw]
  constructor
  · intro f hf
    simp only [List.mem_cons, List.mem_singleton, List.not_mem_nil, or_false] at hf
    rcases hf with rfl | rfl | rfl | rfl | rfl | rfl | rfl <;> rfl
  · intro dest src s
    exact ⟨rfl, rfl, rfl⟩

/-- Witness of C10: in the POD-8 table `assignWithTake` is `copy` at width 8
and agrees with `assignWithCopy` on `podState`. -/
theorem C10_pod_take_is_copy_witness :
    (Builtin.Bi64_.table refExterns 8).assignWithTake = copy 8 ∧
    (Builtin.Bi64_.table refExterns 8).assignWithTake 0 24 podState =
      (Builtin.Bi64_.table refExterns 8).assignWithCopy 0 24 podState :=
  ⟨(C10_pod_take_is_copy Builtin.Bi64_ (by decide) World refExterns 8).1 _ (by simp),
   ((C10_pod_take_is_copy Builtin.Bi64_ (by decide) World refExterns 8).2 0 24 podState).2.2⟩

/-- C11: for every POD table, of width `W`, each of the seven copy / take /
assign / initialize entries returns `dest`, leaves the first `W` bytes at
`dest` equal to the first `W` bytes `src` held, leaves every byte outside the
first `W` bytes of `dest` unchanged (so the rest of a destination buffer, and
all of a source that does not partially overlap `dest`), and leaves the state
behind the primitives alone. -/
theorem C11_pod_copy_exactly_width_bytes (T : Builtin) (hT : T ∈ podBuiltins) (σ : Type)
    (E : Externs σ) (pw dest src : Nat) (s : State σ) :
    (T.table E pw).size ∈ [1, 2, 4, 8] ∧
    ∀ f ∈ [(T.table E pw).initializeBufferWithCopyOfBuffer,
           (T.table E pw).initializeBufferWithCopy,
           (T.table E pw).initializeWithCopy,
           (T.table E pw).assignWithCopy,
           (T.table E pw).initializeBufferWithTake,
           (T.table E pw).initializeWithTake,
           (T.table E pw).assignWithTake],
      (f dest src s).1 = dest ∧
      (∀ i, i < (T.table E pw).size → (f dest src s).2.mem (dest + i) = s.mem (src + i)) ∧
      (∀ x, ¬ (dest ≤ x ∧ x < dest + (T.table E pw).size) → (f dest src s).2.mem x = s.mem x) ∧
      (∀ i, (T.table E pw).size ≤ i → (f dest src s).2.mem (dest + i) = s.mem (dest + i)) ∧
      (SameOrDisjoint (T.table E pw).size dest src →
        ∀ i, i < (T.table E pw).size → (f dest src s).2.mem (src + i) = s.mem (src + i)) ∧
      (f dest src s).2.world = s.world := by
  obtain ⟨w, hw, hTw⟩ := pod_table_cases T hT E pw
  rw [hTw]
  refine ⟨hw, ?_⟩
  intro f hf
  have hf1 : f = copy w := by
    simp only [List.mem_cons, List.mem_singleton, List.not_mem_nil, or_false] at hf
    rcases hf with rfl | rfl | rfl | rfl | rfl | rfl | rfl <;> rfl
  subst hf1
  have hsz : (POD_VALUE_WITNESS_TABLE w w : ValueWitnessTable σ).size = w := rfl
  rw [hsz]
  have hm : (copy w dest src s).2.mem = store w s.mem dest (load w s.mem src) := rfl
  refine ⟨rfl, ?_, ?_, ?_, ?_, rfl⟩
  · intro i hi
    rw [hm, store_load_apply, if_pos ⟨by omega, by omega⟩, Nat.add_sub_cancel_left]
  · intro x hx
    rw [hm]; exact store_apply_out w s.mem dest _ x hx
  · intro i hi
    rw [hm]; exact store_apply_out w s.mem dest _ (dest + i) (by omega)
  · intro h i hi
    rw [hm]; exact bytes_src_after_copy w s.mem dest src h i hi

/-- Witness of C11: `assignWithTake(0, 24)` of the POD-8 table on `podState`
returns 0, puts the low source byte `0x88` at address 0, and leaves the byte
at address 8 (inside the destination buffer, past the value) and the source
byte at address 24 as they were. -/
theorem C11_pod_copy_exactly_width_bytes_witness :
    ((Builtin.Bi64_.table refExterns 8).assignWithTake 0 24 podState).1 = 0 ∧
    ((Builtin.Bi64_.table refExterns 8).assignWithTake 0 24 podState).2.mem (0 + 0) =
      podState.mem (24 + 0) ∧
    ((Builtin.Bi64_.table refExterns 8).assignWithTake 0 24 podState).2.mem (0 + 8) =
      podState.mem (0 + 8) ∧
    ((Builtin.Bi64_.table refExterns 8).assignWithTake 0 24 podState).2.mem (24 + 0) =
      podState.mem (24 + 0) := by
  have h := (C11_pod_copy_exactly_width_bytes Builtin.Bi64_ (by decide) World refExterns 8 0 24
    podState).2 (Builtin.Bi64_.table refExterns 8).assignWithTake (by simp)
  exact ⟨h.1, h.2.1 0 (by decide), h.2.2.2.1 8 (by decide),
    h.2.2.2.2.1 (by decide) 0 (by decide)⟩

/-- C12: for every one of the six built-in tables, whatever the primitives,
`allocateBuffer(buf)` and `projectBuffer(buf)` both return the address `buf`
itself and leave the whole state (memory and the state behind the primitives)
as it was, so projecting after allocating yields `buf`; over the
reference-counting model neither logs a call. -/
theorem C12_allocate_project_identity (T : Builtin) (pw buf : Nat) :
    (∀ (σ : Type) (E : Externs σ) (s : State σ),
      (T.table E pw).allocateBuffer buf s = (buf, s) ∧
      (T.table E pw).projectBuffer buf s = (buf, s) ∧
      (T.table E pw).projectBuffer ((T.table E pw).allocateBuffer buf s).1
        ((T.table E pw).allocateBuffer buf s).2 = (buf, s)) ∧
    (∀ s : State World,
      newCalls s.world ((T.table refExterns pw).allocateBuffer buf s).2.world = [] ∧
      newCalls s.world ((T.table refExterns pw).projectBuffer buf s).2.world = []) := by
  constructor
  · intro σ E s
    cases T <;> exact ⟨rfl, rfl, rfl⟩
  · intro s
    cases T <;> exact ⟨newCalls_self _, newCalls_self _⟩

/-- C13: for every built-in table, whatever the primitives,
`deallocateBuffer(buf)` leaves the whole state as it was: no call, no memory
change, and over the reference-counting model the count of the value held in
`buf` stays what it was; likewise `destroy` and `destroyBuffer` of every POD
table leave the whole state as it was. -/
theorem C13_deallocate_and_pod_destroy_do_nothing (T : Builtin) (pw buf : Nat) :
    (∀ (σ : Type) (E : Externs σ) (s : State σ), (T.table E pw).deallocateBuffer buf s = s) ∧
    (∀ s : State World,
      newCalls s.world ((T.table refExterns pw).deallocateBuffer buf s).world = [] ∧
      ((T.table refExterns pw).deallocateBuffer buf s).mem = s.mem ∧
      ∀ d, ((T.table refExterns pw).deallocateBuffer buf s).world.count d (load pw s.mem buf) =
        s.world.count d (load pw s.mem buf)) ∧
    (T ∈ podBuiltins →
      (∀ (σ : Type) (E : Externs σ) (s : State σ),
        (T.table E pw).destroy buf s = s ∧ (T.table E pw).destroyBuffer buf s = s) ∧
      ∀ s : State World,
        newCalls s.world ((T.table refExterns pw).destroy buf s).world = [] ∧
        newCalls s.world ((T.table refExterns pw).destroyBuffer buf s).world = []) := by
  have hd : ∀ (σ : Type) (E : Externs σ) (s : State σ),
      (T.table E pw).deallocateBuffer buf s = s := by
    intro σ E s
    cases T <;> rfl
  refine ⟨hd, ?_, ?_⟩
  · intro s
    rw [hd World refExterns s]
    exact ⟨newCalls_self _, rfl, fun _ => rfl⟩
  · intro hT
    constructor
    · intro σ E s
      obtain ⟨w, -, hw⟩ := pod_table_cases T hT E pw
      rw [hw]
      exact ⟨rfl, rfl⟩
    · intro s
      obtain ⟨w, -, hw⟩ := pod_table_cases T hT refExterns pw
      rw [hw]
      exact ⟨newCalls_self _, newCalls_self _⟩

/-- Witness of C13: `deallocateBuffer` of the native table on slot 0 of
`demoState` logs nothing and keeps the count of `0x1000` at 1; `destroy` of
the POD-8 table returns the state it was given. -/
theorem C13_deallocate_and_pod_destroy_do_nothing_witness :
    ((Builtin.Bo.table refExterns 8).deallocateBuffer 0 demoState).world.count
      Domain.native 0x1000 = 1 ∧
    newCalls demoState.world ((Builtin.Bo.table refExterns 8).deallocateBuffer 0 demoState).world
      = [] ∧
    (Builtin.Bi64_.table refExterns 8).destroy 0 demoState = demoState := by
  have hp : load 8 demoState.mem 0 = 0x1000 := by decide
  have h := (C13_deallocate_and_pod_destroy_do_nothing Builtin.Bo 8 0).2.1 demoState
  have h3 := h.2.2 Domain.native
  rw [hp] at h3
  exact ⟨h3, h.1,
    (((C13_deallocate_and_pod_destroy_do_nothing Builtin.Bi64_ 8 0).2.2 (by decide)).1
      World refExterns demoState).1⟩

/-- C14: layout constants.  The POD tables have size = alignment = stride = 1,
2, 4 and 8, the native and the foreign table have size = alignment = stride =
pointer width; hence in each of the six tables the stride is at least the
size and a multiple of the alignment, and, pointers being at least three
bytes wide, every size is at most the capacity of the three-word buffer. -/
theorem C14_layout_constants (σ : Type) (E : Externs σ) (pw : Nat) :
    (∀ T w, (T, w) ∈ [(Builtin.Bi8_, 1), (Builtin.Bi16_, 2), (Builtin.Bi32_, 4),
        (Builtin.Bi64_, 8), (Builtin.Bo, pw), (Builtin.BO, pw)] →
      (T.table E pw).size = w ∧ (T.table E pw).alignment = w ∧ (T.table E pw).stride = w) ∧
    (∀ T : Builtin,
      (T.table E pw).size = (T.table E pw).alignment ∧
      (T.table E pw).alignment = (T.table E pw).stride ∧
      (T.table E pw).size ≤ (T.table E pw).stride ∧
      (T.table E pw).alignment ∣ (T.table E pw).stride ∧
      (3 ≤ pw → (T.table E pw).size ≤ inlineBufferCapacity pw)) := by
  constructor
  · intro T w h
    simp only [List.mem_cons, List.mem_singleton, List.not_mem_nil, or_false, Prod.mk.injEq] at h
    rcases h with ⟨rfl, rfl⟩ | ⟨rfl, rfl⟩ | ⟨rfl, rfl⟩ | ⟨rfl, rfl⟩ | ⟨rfl, rfl⟩ | ⟨rfl, rfl⟩ <;>
      exact ⟨rfl, rfl, rfl⟩
  · intro T
    have hcap : inlineBufferCapacity pw = 3 * pw := rfl
    cases T <;>
      refine ⟨rfl, rfl, Nat.le_refl _, Nat.dvd_refl _, fun hpw => ?_⟩ <;>
      rw [hcap] <;>
      first
      | (show 1 ≤ 3 * pw; omega)
      | (show 2 ≤ 3 * pw; omega)
      | (show 4 ≤ 3 * pw; omega)
      | (show 8 ≤ 3 * pw; omega)
      | (show pw ≤ 3 * pw; omega)

/-- Witness of C14: 8-byte pointers; the POD-8 table has size 8, at most the
24 bytes of a buffer, and the native table has stride 8. -/
theorem C14_layout_constants_witness :
    (Builtin.Bi64_.table refExterns 8).size = 8 ∧
    (Builtin.Bi64_.table refExterns 8).size ≤ inlineBufferCapacity 8 ∧
    (Builtin.Bo.table refExterns 8).stride = 8 ∧
    inlineBufferCapacity 8 = 24 :=
  ⟨((C14_layout_constants World refExterns 8).1 Builtin.Bi64_ 8 (by simp)).1,
   ((C14_layout_constants World refExterns 8).2 Builtin.Bi64_).2.2.2.2 (by decide),
   ((C14_layout_constants World refExterns 8).1 Builtin.Bo 8 (by simp)).2.2,
   rfl⟩

/-- C15: each of the six descriptors the file defines has the kind
`MetadataKind::Opaque` and a non-null witness-table pointer, and resolving it
succeeds with the table of that same type: the POD descriptors give the
tables of size 1, 2, 4 and 8, the native one `_TWVBo`, the foreign one
`_TWVBO`. -/
theorem C15_opaque_metadata_resolve (σ : Type) (E : Externs σ) (pw : Nat) :
    builtinMetadata.length = 6 ∧
    (∀ m ∈ builtinMetadata,
      m.Kind = MetadataKind.Opaque ∧ m.ValueWitnesses ≠ none ∧ (resolve E pw m).isSome = true) ∧
    (∀ T : Builtin, OPAQUE_METADATA T ∈ builtinMetadata ∧
      resolve E pw (OPAQUE_METADATA T) = some (T.table E pw)) ∧
    resolve E pw _TMdBi8_ = some _TWVBi8_ ∧ (_TWVBi8_ : ValueWitnessTable σ).size = 1 ∧
    resolve E pw _TMdBi16_ = some _TWVBi16_ ∧ (_TWVBi16_ : ValueWitnessTable σ).size = 2 ∧
    resolve E pw _TMdBi32_ = some _TWVBi32_ ∧ (_TWVBi32_ : ValueWitnessTable σ).size = 4 ∧
    resolve E pw _TMdBi64_ = some _TWVBi64_ ∧ (_TWVBi64_ : ValueWitnessTable σ).size = 8 ∧
    resolve E pw _TMdBo = some (_TWVBo E pw) ∧
    resolve E pw _TMdBO = some (_TWVBO E pw) := by
  refine ⟨rfl, ?_, ?_, rfl, rfl, rfl, rfl, rfl, rfl, rfl, rfl, rfl, rfl⟩
  · intro m hm
    simp only [builtinMetadata, List.mem_cons, List.mem_singleton, List.not_mem_nil,
      or_false] at hm
    rcases hm with rfl | rfl | rfl | rfl | rfl | rfl <;>
      exact ⟨rfl, by simp [_TMdBi8_, _TMdBi16_, _TMdBi32_, _TMdBi64_, _TMdBo, _TMdBO,
        OPAQUE_METADATA], rfl⟩
  · intro T
    refine ⟨?_, rfl⟩
    cases T <;> simp [builtinMetadata, _TMdBi8_, _TMdBi16_, _TMdBi32_, _TMdBi64_, _TMdBo, _TMdBO]

/-- Witness of C15: the descriptor `_TMdBi64_`. -/
theorem C15_opaque_metadata_resolve_witness :
    _TMdBi64_.Kind = MetadataKind.Opaque ∧ _TMdBi64_.ValueWitnesses ≠ none ∧
    (resolve refExterns 8 _TMdBi64_).isSome = true :=
  (C15_opaque_metadata_resolve World refExterns 8).2.1 _TMdBi64_ (by simp [builtinMetadata])

/-- C16, refuted as stated: the initialiser of the native table `_TWVBo` does
not consist of eleven function pointers and three integers; it holds twelve
function pointers. -/
theorem C16_eleven_pointers_counterexample :
    ¬ ((fnPointers (Builtin.Bo.initializer 8)).length = 11 ∧
       (integers (Builtin.Bo.initializer 8)).length = 3 ∧
       ∀ p ∈ fnPointers (Builtin.Bo.initializer 8), p ≠ none) := by
  decide

/-- C16, amended: every built-in witness table is written as exactly twelve
function pointers followed by the three layout integers size, alignment and
stride; all twelve pointers are non-null, and each entry of the table is the
defined function its pointer names. -/
theorem C16_twelve_pointers_non_null (T : Builtin) (σ : Type) (E : Externs σ) (pw : Nat) :
    (T.initializer pw).length = 15 ∧
    (fnPointers (T.initializer pw)).length = 12 ∧
    integers (T.initializer pw) =
      [(T.table E pw).size, (T.table E pw).alignment, (T.table E pw).stride] ∧
    (∀ p ∈ fnPointers (T.initializer pw), p ≠ none) ∧
    (∀ e : Entry, e.index < 12 ∧
      ∃ f, (fnPointers (T.initializer pw)).get? e.index = some (some f) ∧
        ∀ a b s, (T.table E pw).call e a b s = f.run E pw a b s) ∧
    (∀ e1 e2 : Entry, e1.index = e2.index → e1 = e2) := by
  refine ⟨by cases T <;> rfl, by cases T <;> rfl, table_layout_of_initializer T E pw, ?_, ?_, ?_⟩
  · intro p hp
    cases T <;>
      simp only [Builtin.initializer, POD_initializer, _TWVBo_initializer, _TWVBO_initializer,
        fnPointers, List.mem_cons, List.mem_singleton, List.not_mem_nil, or_false] at hp <;>
      rcases hp with rfl | rfl | rfl | rfl | rfl | rfl | rfl | rfl | rfl | rfl | rfl | rfl <;>
      simp
  · intro e
    exact ⟨by cases e <;> decide, table_entry_of_initializer T E pw e⟩
  · intro e1 e2 h
    cases e1 <;> cases e2 <;> first | rfl | (exact absurd h (by decide))

/-- Witness of C16 (amended): the first pointer of the initialiser of `_TWVBo`
is `&destroyWithRelease`, not null. -/
theorem C16_twelve_pointers_non_null_witness :
    (fnPointers (Builtin.Bo.initializer 8)).length = 12 ∧
    some Fn.destroyWithRelease ∈ fnPointers (Builtin.Bo.initializer 8) ∧
    some Fn.destroyWithRelease ≠ none :=
  ⟨(C16_twelve_pointers_non_null Builtin.Bo World refExterns 8).2.1,
   by decide,
   (C16_twelve_pointers_non_null Builtin.Bo World refExterns 8).2.2.2.1
     (some Fn.destroyWithRelease) (by decide)⟩

/-- C17: aliased take-assignment.  For a slot `x` of a reference-counted table
holding `p`, whose count is `n`, `assignWithTake(x, x)` returns `x`, makes
exactly one call, a release of `p`, and leaves memory (hence `x`, still
holding `p`) unchanged; the count of `p` becomes `n - 1`, one lower when
`n ≥ 1`, and `p` is freed when `n = 1`, whereas `assignWithCopy(x, x)` leaves
the count at `n`. -/
theorem C17_assignWithTake_aliased (d : Domain) (pw x : Nat) (s : State World) :
    ((rcTable d pw).assignWithTake x x s).1 = x ∧
    calls ((rcTable d pw).assignWithTake x x s).2.world =
      calls s.world ++ [(Op.release, d, load pw s.mem x)] ∧
    ((rcTable d pw).assignWithTake x x s).2.mem = s.mem ∧
    load pw ((rcTable d pw).assignWithTake x x s).2.mem x = load pw s.mem x ∧
    ((rcTable d pw).assignWithTake x x s).2.world.count d (load pw s.mem x) =
      s.world.count d (load pw s.mem x) - 1 ∧
    (1 ≤ s.world.count d (load pw s.mem x) →
      ((rcTable d pw).assignWithTake x x s).2.world.count d (load pw s.mem x) + 1 =
        s.world.count d (load pw s.mem x)) ∧
    (s.world.count d (load pw s.mem x) = 1 →
      ((rcTable d pw).assignWithTake x x s).2.world.count d (load pw s.mem x) = 0 ∧
      ((rcTable d pw).assignWithTake x x s).2.world.freed =
        s.world.freed ++ [(d, load pw s.mem x)]) ∧
    ((rcTable d pw).assignWithCopy x x s).2.world.count d (load pw s.mem x) =
      s.world.count d (load pw s.mem x) := by
  have hc : ((rcTable d pw).assignWithTake x x s).2.world.count d (load pw s.mem x) =
      s.world.count d (load pw s.mem x) - 1 := by
    rw [rcTable_assignWithTake]
    show (releaseIn d (load pw s.mem x) s).world.count d (load pw s.mem x) = _
    simp
  refine ⟨?_, ?_, ?_, ?_, hc, ?_, ?_, ?_⟩
  · rw [rcTable_assignWithTake]
  · rw [rcTable_assignWithTake]; simp [calls]
  · rw [rcTable_assignWithTake]; exact store_load_self pw s.mem x
  · rw [rcTable_assignWithTake]
    show load pw (store pw s.mem x (load pw s.mem x)) x = _
    rw [store_load_self]
  · intro h
    rw [hc]; omega
  · intro h
    refine ⟨by rw [hc, h], ?_⟩
    rw [rcTable_assignWithTake]
    show (releaseIn d (load pw s.mem x) s).world.freed = _
    rw [releaseIn_freed, h]
    rfl
  · rw [rcTable_assignWithCopy]
    show (releaseIn d (load pw s.mem x)
      { (retainIn d (load pw s.mem x) s).2 with mem := (retainIn d (load pw s.mem x) s).2.mem }
        ).world.count d (load pw s.mem x) = _
    rw [count_release_retain]

/-- Witness of C17: on `demoState` slot 0 holds `0x1000` with count 1;
`assignWithTake(0, 0)` of the native table frees it while slot 0 still holds
it. -/
theorem C17_assignWithTake_aliased_witness :
    demoState.world.count Domain.native (load 8 demoState.mem 0) = 1 ∧
    load 8 ((rcTable Domain.native 8).assignWithTake 0 0 demoState).2.mem 0 = 0x1000 ∧
    ((rcTable Domain.native 8).assignWithTake 0 0 demoState).2.world.count Domain.native 0x1000
      = 0 ∧
    ((rcTable Domain.native 8).assignWithTake 0 0 demoState).2.world.freed =
      [(Domain.native, 0x1000)] := by
  have hp : load 8 demoState.mem 0 = 0x1000 := by decide
  have h := C17_assignWithTake_aliased Domain.native 8 0 demoState
  have h7 := h.2.2.2.2.2.2.1 (by decide)
  have h4 := h.2.2.2.1
  rw [hp] at h7 h4
  exact ⟨by decide, h4, h7.1, h7.2⟩

/-- C18: the copying entries store what the retain primitive returns.  For
arbitrary primitives, after any of the four copying entries of the native
table (`initializeBufferWithCopyOfBuffer`, `initializeBufferWithCopy`,
`initializeWithCopy`, `assignWithCopy`) the `dest` slot holds the value
`swift_retain(*src)` returned, cut to pointer width; so when that value is a
pointer, `dest` holds exactly it, and `dest` holds the source pointer exactly
when the retain returned its argument.  The same holds for the foreign table
and `objc_retain`. -/
theorem C18_copy_stores_retain_result (σ : Type) (E : Externs σ) (pw dest src : Nat)
    (s : State σ) :
    (∀ f ∈ [(_TWVBo E pw).initializeBufferWithCopyOfBuffer, (_TWVBo E pw).initializeBufferWithCopy,
            (_TWVBo E pw).initializeWithCopy, (_TWVBo E pw).assignWithCopy],
      load pw (f dest src s).2.mem dest = (E.swift_retain (load pw s.mem src) s).1 % 256 ^ pw ∧
      ((E.swift_retain (load pw s.mem src) s).1 < 256 ^ pw →
        load pw (f dest src s).2.mem dest = (E.swift_retain (load pw s.mem src) s).1 ∧
        (load pw (f dest src s).2.mem dest = load pw s.mem src ↔
          (E.swift_retain (load pw s.mem src) s).1 = load pw s.mem src))) ∧
    (∀ f ∈ [(_TWVBO E pw).initializeBufferWithCopyOfBuffer, (_TWVBO E pw).initializeBufferWithCopy,
            (_TWVBO E pw).initializeWithCopy, (_TWVBO E pw).assignWithCopy],
      load pw (f dest src s).2.mem dest = (E.objc_retain (load pw s.mem src) s).1 % 256 ^ pw ∧
      ((E.objc_retain (load pw s.mem src) s).1 < 256 ^ pw →
        load pw (f dest src s).2.mem dest = (E.objc_retain (load pw s.mem src) s).1 ∧
        (load pw (f dest src s).2.mem dest = load pw s.mem src ↔
          (E.objc_retain (load pw s.mem src) s).1 = load pw s.mem src))) := by
  have fin : ∀ (m : Mem) (v : Nat),
      load pw m dest = v % 256 ^ pw →
      load pw m dest = v % 256 ^ pw ∧
      (v < 256 ^ pw → load pw m dest = v ∧ (load pw m dest = load pw s.mem src ↔
        v = load pw s.mem src)) := by
    intro m v h
    refine ⟨h, fun hv => ?_⟩
    have hv1 : load pw m dest = v := by rw [h, Nat.mod_eq_of_lt hv]
    exact ⟨hv1, by rw [hv1]⟩
  constructor
  · intro f hf
    simp only [List.mem_cons, List.mem_singleton, List.not_mem_nil, or_false] at hf
    rcases hf with rfl | rfl | rfl | rfl <;> exact fin _ _ (load_store_same pw _ dest _)
  · intro f hf
    simp only [List.mem_cons, List.mem_singleton, List.not_mem_nil, or_false] at hf
    rcases hf with rfl | rfl | rfl | rfl <;> exact fin _ _ (load_store_same pw _ dest _)

/-- Witness of C18: with a retain that returns its argument plus 16, copying
slot 0 (holding `0x1000`) into slot 8 leaves slot 8 holding `0x1010`, by
`initializeWithCopy` and by `assignWithCopy` alike, and not the source pointer. -/
theorem C18_copy_stores_retain_result_witness :
    (shiftExterns.swift_retain (load 8 shiftState.mem 0) shiftState).1 < 256 ^ 8 ∧
    load 8 ((_TWVBo shiftExterns 8).initializeWithCopy 8 0 shiftState).2.mem 8 = 0x1010 ∧
    load 8 ((_TWVBo shiftExterns 8).assignWithCopy 8 0 shiftState).2.mem 8 = 0x1010 ∧
    load 8 ((_TWVBo shiftExterns 8).initializeWithCopy 8 0 shiftState).2.mem 8 ≠
      load 8 shiftState.mem 0 := by
  have hb : (shiftExterns.swift_retain (load 8 shiftState.mem 0) shiftState).1 < 256 ^ 8 := by
    decide
  have hr : (shiftExterns.swift_retain (load 8 shiftState.mem 0) shiftState).1 = 0x1010 := by
    decide
  have h1 := ((C18_copy_stores_retain_result Unit shiftExterns 8 8 0 shiftState).1
    (_TWVBo shiftExterns 8).initializeWithCopy (by simp)).2 hb
  have h2 := ((C18_copy_stores_retain_result Unit shiftExterns 8 8 0 shiftState).1
    (_TWVBo shiftExterns 8).assignWithCopy (by simp)).2 hb
  refine ⟨hb, by rw [h1.1, hr], by rw [h2.1, hr], ?_⟩
  intro h
  have := h1.2.1 h
  rw [hr] at this
  revert this
  decide

end Swift
